import Mathlib

/-!
Verification development for the A3Dshell-web configuration GUI
(src/gui_app.py).  The Python module is shallowly embedded: the INI
serializer and deserializer, the Swiss-boundary validators, the ROI-tab
session-state updates and the run-invoker cleanup are translated into
executable Lean definitions, and the specification's claims are settled
as theorems about those definitions.

Numbers: Python floats are modelled by the rational numbers they print
as (float repr is injective and float(repr(x)) == x, so identifying a
float with its decimal value is lossless for serialization questions).
Geometry: the shapely polygon operations are external-library calls and
are modelled by oracle functions (an arbitrary containment predicate),
with `Except` results standing for operations that may raise.
-/

namespace A3D

/-! ## Characters and decimal digit strings -/

def isSpaceChar (c : Char) : Bool := c == ' ' || c == '\t'

def isDigitChar (c : Char) : Bool := 48 ≤ c.toNat && c.toNat ≤ 57

def digitChar (d : Nat) : Char := Char.ofNat (48 + d)

def digitVal (c : Char) : Nat := c.toNat - 48

/-- Fuel-driven digit expansion (structural recursion keeps it kernel-computable). -/
def natToCharsAux : Nat → Nat → List Char
  | 0, _ => []
  | _ + 1, 0 => []
  | fuel + 1, n + 1 => natToCharsAux fuel ((n + 1) / 10) ++ [digitChar ((n + 1) % 10)]

/-- Decimal rendering of a natural number, as Python str(int) produces it. -/
def natToChars (n : Nat) : List Char :=
  if n = 0 then ['0'] else natToCharsAux n n

theorem natToCharsAux_eq_digits {fuel n : Nat} (h : n ≤ fuel) :
    natToCharsAux fuel n = (Nat.digits 10 n).reverse.map digitChar := by
  induction fuel generalizing n with
  | zero =>
    have hn : n = 0 := by omega
    subst hn
    simp [natToCharsAux]
  | succ fuel ih =>
    cases n with
    | zero => simp [natToCharsAux]
    | succ n =>
      have hdig : Nat.digits 10 (n + 1) = (n + 1) % 10 :: Nat.digits 10 ((n + 1) / 10) :=
        Nat.digits_def' (by norm_num) (Nat.succ_pos n)
      have hle : (n + 1) / 10 ≤ fuel := by
        have := Nat.div_lt_self (Nat.succ_pos n) (by norm_num : (1 : Nat) < 10)
        omega
      show natToCharsAux fuel ((n + 1) / 10) ++ [digitChar ((n + 1) % 10)] = _
      rw [hdig, List.reverse_cons, List.map_append, ih hle]
      rfl

theorem natToChars_eq_digits (n : Nat) :
    natToChars n = if n = 0 then ['0'] else (Nat.digits 10 n).reverse.map digitChar := by
  unfold natToChars
  by_cases h : n = 0
  · simp [h]
  · rw [if_neg h, if_neg h, natToCharsAux_eq_digits (le_refl n)]

def natToStr (n : Nat) : String := String.mk (natToChars n)

/-- Decimal rendering of an integer, as Python str(int) produces it. -/
def intToChars (i : Int) : List Char :=
  if i < 0 then '-' :: natToChars i.natAbs else natToChars i.natAbs

def intToStr (i : Int) : String := String.mk (intToChars i)

/-- Value of a digit string (most significant digit first). -/
def valChars (cs : List Char) : Nat :=
  cs.foldl (fun a c => 10 * a + digitVal c) 0

/-- Parse a nonempty all-digit character list; models int(s) on such input. -/
def parseNatChars (cs : List Char) : Option Nat :=
  if cs.isEmpty then none
  else if cs.all isDigitChar then some (valChars cs) else none

/-- Parse an optionally negated digit string; models int(s). -/
def parseIntChars (cs : List Char) : Option Int :=
  match cs with
  | '-' :: rest => (parseNatChars rest).map (fun n => -(n : Int))
  | _ => (parseNatChars cs).map (fun n => (n : Int))

theorem digitVal_digitChar {d : Nat} (hd : d < 10) : digitVal (digitChar d) = d := by
  interval_cases d <;> rfl

theorem isDigitChar_digitChar {d : Nat} (hd : d < 10) : isDigitChar (digitChar d) = true := by
  interval_cases d <;> rfl

theorem foldl_val (cs : List Char) (a : Nat) :
    cs.foldl (fun x c => 10 * x + digitVal c) a = a * 10 ^ cs.length + valChars cs := by
  induction cs generalizing a with
  | nil => simp [valChars]
  | cons c cs ih =>
    simp only [List.foldl_cons, List.length_cons, valChars]
    rw [ih, ih (10 * 0 + digitVal c)]
    ring

theorem valChars_append (a b : List Char) :
    valChars (a ++ b) = valChars a * 10 ^ b.length + valChars b := by
  unfold valChars
  rw [List.foldl_append]
  exact foldl_val b (valChars a)

theorem valChars_singleton (c : Char) : valChars [c] = digitVal c := by
  simp [valChars]

theorem valChars_map_digits (L : List Nat) (h : ∀ d ∈ L, d < 10) :
    valChars (L.reverse.map digitChar) = Nat.ofDigits 10 L := by
  induction L with
  | nil => simp [valChars, Nat.ofDigits]
  | cons d L ih =>
    have hd : d < 10 := h d (by simp)
    have hL : ∀ x ∈ L, x < 10 := fun x hx => h x (by simp [hx])
    rw [List.reverse_cons, List.map_append, valChars_append]
    simp only [List.map_cons, List.map_nil, List.length_cons, List.length_nil]
    rw [ih hL, valChars_singleton, digitVal_digitChar hd, Nat.ofDigits_cons]
    ring

theorem valChars_natToChars (n : Nat) : valChars (natToChars n) = n := by
  rw [natToChars_eq_digits]
  by_cases h : n = 0
  · subst h; rfl
  · rw [if_neg h, valChars_map_digits _ (fun d hd => Nat.digits_lt_base (by norm_num) hd),
      Nat.ofDigits_digits]

theorem natToChars_all_digit (n : Nat) : (natToChars n).all isDigitChar = true := by
  rw [natToChars_eq_digits]
  by_cases h : n = 0
  · subst h; rfl
  · rw [if_neg h, List.all_eq_true]
    intro c hc
    obtain ⟨d, hd, rfl⟩ := List.mem_map.mp hc
    exact isDigitChar_digitChar (Nat.digits_lt_base (by norm_num) (List.mem_reverse.mp hd))

theorem natToChars_ne_nil (n : Nat) : natToChars n ≠ [] := by
  rw [natToChars_eq_digits]
  by_cases h : n = 0
  · simp [h]
  · rw [if_neg h]
    simp only [ne_eq, List.map_eq_nil_iff, List.reverse_eq_nil_iff]
    exact Nat.digits_ne_nil_iff_ne_zero.mpr h

theorem parseNatChars_natToChars (n : Nat) : parseNatChars (natToChars n) = some n := by
  unfold parseNatChars
  rw [if_neg (by simp [List.isEmpty_iff, natToChars_ne_nil]), if_pos (natToChars_all_digit n),
    valChars_natToChars]

theorem valChars_replicate_zero (k : Nat) : valChars (List.replicate k '0') = 0 := by
  induction k with
  | zero => rfl
  | succ k ih =>
    have : List.replicate (k + 1) '0' = List.replicate k '0' ++ ['0'] := by
      rw [← List.replicate_succ']
    rw [this, valChars_append, ih, valChars_singleton]
    rfl

theorem parseNatChars_leading_zeros {n : Nat} (k : Nat) (cs : List Char)
    (h : parseNatChars cs = some n) :
    parseNatChars (List.replicate k '0' ++ cs) = some n := by
  unfold parseNatChars at h ⊢
  by_cases he : cs.isEmpty
  · simp [he] at h
  by_cases ha : cs.all isDigitChar
  · rw [if_neg he, if_pos ha] at h
    have hne : ¬(List.replicate k '0' ++ cs).isEmpty := by
      simp only [List.isEmpty_iff, List.append_eq_nil] at he ⊢
      intro hcon
      exact he hcon.2
    rw [if_neg hne, if_pos ?_]
    · rw [valChars_append, valChars_replicate_zero]
      simpa using h
    · rw [List.all_append, ha, Bool.and_true, List.all_eq_true]
      intro c hc
      rw [List.eq_of_mem_replicate hc]
      rfl
  · rw [if_neg he, if_neg ha] at h
    exact absurd h (by simp)

/-! ## Splitting character lists -/

/-- Split a character list at every occurrence of the separator. -/
def splitOnChar (sep : Char) : List Char → List (List Char)
  | [] => [[]]
  | c :: rest =>
    match splitOnChar sep rest with
    | [] => if c == sep then [[], []] else [[c]]
    | h :: t => if c == sep then [] :: h :: t else (c :: h) :: t

theorem splitOnChar_ne_nil (sep : Char) (cs : List Char) : splitOnChar sep cs ≠ [] := by
  induction cs with
  | nil => simp [splitOnChar]
  | cons c rest ih =>
    unfold splitOnChar
    rcases h : splitOnChar sep rest with _ | ⟨hd, tl⟩
    · exact absurd h ih
    · by_cases hc : c == sep <;> simp [hc]

theorem splitOnChar_cons (sep c : Char) (rest : List Char) :
    splitOnChar sep (c :: rest) =
      match splitOnChar sep rest with
      | [] => if c == sep then [[], []] else [[c]]
      | h :: t => if c == sep then [] :: h :: t else (c :: h) :: t := rfl

theorem splitOnChar_not_mem {sep : Char} {cs : List Char} (h : sep ∉ cs) :
    splitOnChar sep cs = [cs] := by
  induction cs with
  | nil => rfl
  | cons c rest ih =>
    have hc : ¬(c == sep) := by
      simp only [List.mem_cons, not_or] at h
      simp only [beq_iff_eq]
      exact fun hcc => h.1 hcc.symm
    have hrest : sep ∉ rest := fun hr => h (List.mem_cons_of_mem _ hr)
    rw [splitOnChar_cons, ih hrest]
    simp [hc]

theorem splitOnChar_append_cons {sep : Char} {a : List Char} (b : List Char) (h : sep ∉ a) :
    splitOnChar sep (a ++ sep :: b) = a :: splitOnChar sep b := by
  induction a with
  | nil =>
    show splitOnChar sep (sep :: b) = [] :: splitOnChar sep b
    rw [splitOnChar_cons]
    rcases hs : splitOnChar sep b with _ | ⟨hd, tl⟩
    · exact absurd hs (splitOnChar_ne_nil sep b)
    · simp
  | cons c rest ih =>
    have hc : ¬(c == sep) := by
      simp only [List.mem_cons, not_or] at h
      simp only [beq_iff_eq]
      exact fun hcc => h.1 hcc.symm
    have hrest : sep ∉ rest := fun hr => h (List.mem_cons_of_mem _ hr)
    simp only [List.cons_append]
    rw [splitOnChar_cons, ih hrest]
    simp [hc]

/-! ## Python floats as decimal rationals

The serializer interpolates Python floats via str(float), which prints the
shortest decimal that parses back to the same float.  We model a float by
the rational value of that decimal, so the rendering below (sign, integer
part, dot, fraction digits without trailing zeros, and a trailing .0 for
whole numbers) coincides with Python's output on every modelled value. -/

/-- Smallest power of ten the denominator divides, for denominators
dividing 10^20 (every value we serialize is such a decimal). -/
def decPow (q : ℚ) : Option Nat := (List.range 21).find? (fun k => q.den ∣ 10 ^ k)

/-- Digits of the non-negative decimal n / den scaled by 10^k, with the
decimal point inserted before the last k digits (and a trailing .0 when
k = 0), as repr(float) prints it. -/
def fmtQnnChars (n den k : Nat) : List Char :=
  let scaled := n * 10 ^ k / den
  if k = 0 then natToChars scaled ++ ['.', '0']
  else
    let ds := natToChars scaled
    let padded := if ds.length < k + 1 then List.replicate (k + 1 - ds.length) '0' ++ ds else ds
    padded.take (padded.length - k) ++ '.' :: padded.drop (padded.length - k)

def fmtQChars (q : ℚ) : List Char :=
  match decPow q with
  | some k => (if q < 0 then ['-'] else []) ++ fmtQnnChars q.num.natAbs q.den k
  | none => (toString q).data

/-- Decimal rendering of a rational, modelling Python str(float). -/
def fmtQ (q : ℚ) : String := String.mk (fmtQChars q)

/-- Interpret the dot-separated pieces of an unsigned decimal literal. -/
def parseParts : List (List Char) → Option ℚ
  | [a] => (parseNatChars a).map (fun n => (n : ℚ))
  | [a, b] =>
    if (a ++ b).isEmpty then none
    else if (a ++ b).all isDigitChar then
      some ((valChars (a ++ b) : ℚ) / 10 ^ b.length)
    else none
  | _ => none

/-- Parse an unsigned decimal literal (digits, optionally with one dot). -/
def parseQPos (body : List Char) : Option ℚ := parseParts (splitOnChar '.' body)

/-- Parse a signed decimal literal; models float(s) on decimal input. -/
def parseQChars : List Char → Option ℚ
  | '-' :: rest => (parseQPos rest).map (fun x => -x)
  | cs => parseQPos cs

def parseQ (s : String) : Option ℚ := parseQChars s.data

theorem parseParts_pair (a b : List Char) :
    parseParts [a, b] =
      if (a ++ b).isEmpty then none
      else if (a ++ b).all isDigitChar then
        some ((valChars (a ++ b) : ℚ) / 10 ^ b.length)
      else none := rfl

theorem ne_dot_of_digit {c : Char} (h : isDigitChar c = true) : c ≠ '.' := by
  intro hc
  subst hc
  simp [isDigitChar] at h

theorem not_dot_mem_of_all_digit {cs : List Char} (h : cs.all isDigitChar = true) :
    '.' ∉ cs := by
  intro hm
  exact ne_dot_of_digit (List.all_eq_true.mp h _ hm) rfl

theorem mem_natToChars_digit {n : Nat} {c : Char} (h : c ∈ natToChars n) :
    isDigitChar c = true :=
  List.all_eq_true.mp (natToChars_all_digit n) _ h

theorem paddedChars_all_digit {k : Nat} {ds : List Char} (h : ds.all isDigitChar = true) :
    (List.replicate k '0' ++ ds).all isDigitChar = true := by
  rw [List.all_append, h, Bool.and_true, List.all_eq_true]
  intro c hc
  rw [List.eq_of_mem_replicate hc]
  rfl

theorem fmtQnnChars_zero (n den : Nat) :
    fmtQnnChars n den 0 = natToChars (n / den) ++ ['.', '0'] := by
  unfold fmtQnnChars
  norm_num

theorem parseQPos_fmtQnn (n den k : Nat) (hden : den ≠ 0) (hdvd : den ∣ 10 ^ k) :
    parseQPos (fmtQnnChars n den k) = some ((n : ℚ) / (den : ℚ)) := by
  have hm : den * (10 ^ k / den) = 10 ^ k := Nat.mul_div_cancel' hdvd
  have hscaled : n * 10 ^ k / den = n * (10 ^ k / den) := Nat.mul_div_assoc n hdvd
  by_cases hk : k = 0
  · subst hk
    have hden1 : den = 1 := Nat.dvd_one.mp (by simpa using hdvd)
    subst hden1
    rw [fmtQnnChars_zero, Nat.div_one]
    unfold parseQPos
    have hsplit : splitOnChar '.' (natToChars n ++ '.' :: ['0']) = [natToChars n, ['0']] := by
      rw [splitOnChar_append_cons _ (not_dot_mem_of_all_digit (natToChars_all_digit n)),
        splitOnChar_not_mem (by simp)]
    rw [show natToChars n ++ ['.', '0'] = natToChars n ++ '.' :: ['0'] from rfl, hsplit,
      parseParts_pair]
    have hne : ¬(natToChars n ++ ['0']).isEmpty := by
      simp [List.isEmpty_iff, natToChars_ne_nil]
    rw [if_neg hne, if_pos (by
      rw [List.all_append, natToChars_all_digit]
      rfl)]
    rw [valChars_append, valChars_singleton, valChars_natToChars,
      show digitVal '0' = 0 from rfl]
    push_cast
    field_simp
  · unfold fmtQnnChars
    rw [if_neg hk]
    set ds := natToChars (n * 10 ^ k / den) with hds
    set padded := if ds.length < k + 1 then List.replicate (k + 1 - ds.length) '0' ++ ds else ds
      with hpadded
    have hds_digit : ds.all isDigitChar = true := natToChars_all_digit _
    have hpad_digit : padded.all isDigitChar = true := by
      rw [hpadded]
      by_cases hlt : ds.length < k + 1
      · rw [if_pos hlt]; exact paddedChars_all_digit hds_digit
      · rw [if_neg hlt]; exact hds_digit
    have hpad_len : k + 1 ≤ padded.length := by
      rw [hpadded]
      by_cases hlt : ds.length < k + 1
      · rw [if_pos hlt]
        simp only [List.length_append, List.length_replicate]
        omega
      · rw [if_neg hlt]
        omega
    have hpad_val : valChars padded = n * (10 ^ k / den) := by
      rw [hpadded]
      by_cases hlt : ds.length < k + 1
      · rw [if_pos hlt, valChars_append, valChars_replicate_zero, hds, valChars_natToChars,
          hscaled]
        ring
      · rw [if_neg hlt, hds, valChars_natToChars, hscaled]
    set a := padded.take (padded.length - k) with hadef
    set b := padded.drop (padded.length - k) with hbdef
    have ha_digit : a.all isDigitChar = true := by
      rw [List.all_eq_true] at hpad_digit ⊢
      exact fun c hc => hpad_digit c (List.take_subset _ _ hc)
    have hb_digit : b.all isDigitChar = true := by
      rw [List.all_eq_true] at hpad_digit ⊢
      exact fun c hc => hpad_digit c (List.drop_subset _ _ hc)
    have hb_len : b.length = k := by
      rw [hbdef, List.length_drop]
      omega
    have ha_ne : a ≠ [] := by
      rw [hadef, ← List.length_pos_iff_ne_nil, List.length_take]
      omega
    unfold parseQPos
    rw [splitOnChar_append_cons _ (not_dot_mem_of_all_digit ha_digit),
      splitOnChar_not_mem (not_dot_mem_of_all_digit hb_digit), parseParts_pair]
    rw [if_neg (by
      rw [List.isEmpty_iff]
      exact fun hcon => ha_ne (List.append_eq_nil.mp hcon).1)]
    rw [if_pos (by rw [List.all_append, ha_digit, hb_digit]; rfl)]
    rw [hadef, hbdef, List.take_append_drop, hpad_val, hb_len]
    have hmQ : ((den : ℚ)) * ((10 ^ k / den : Nat) : ℚ) = (10 : ℚ) ^ k := by
      exact_mod_cast congrArg (fun x : Nat => (x : ℚ)) hm
    have hm0 : ((10 ^ k / den : Nat) : ℚ) ≠ 0 := by
      intro h0
      rw [h0, mul_zero] at hmQ
      exact absurd hmQ.symm (by positivity)
    rw [show ((n * (10 ^ k / den) : Nat) : ℚ) = (n : ℚ) * ((10 ^ k / den : Nat) : ℚ) by
      push_cast; ring]
    rw [← hmQ, mul_div_mul_right _ _ hm0]

theorem fmtQnnChars_plain {n den k : Nat} {c : Char} (hc : c ∈ fmtQnnChars n den k) :
    isDigitChar c = true ∨ c = '.' := by
  unfold fmtQnnChars at hc
  by_cases hk : k = 0
  · rw [if_pos hk] at hc
    rcases List.mem_append.mp hc with h | h
    · exact Or.inl (mem_natToChars_digit h)
    · simp only [List.mem_cons, List.not_mem_nil, or_false] at h
      rcases h with h | h
      · exact Or.inr h
      · subst h; left; rfl
  · rw [if_neg hk] at hc
    set ds := natToChars (n * 10 ^ k / den)
    set padded := if ds.length < k + 1 then List.replicate (k + 1 - ds.length) '0' ++ ds else ds
      with hpadded
    have hpad_digit : padded.all isDigitChar = true := by
      rw [hpadded]
      by_cases hlt : ds.length < k + 1
      · rw [if_pos hlt]; exact paddedChars_all_digit (natToChars_all_digit _)
      · rw [if_neg hlt]; exact natToChars_all_digit _
    rcases List.mem_append.mp hc with h | h
    · exact Or.inl (List.all_eq_true.mp hpad_digit _ (List.take_subset _ _ h))
    · simp only [List.mem_cons] at h
      rcases h with h | h
      · exact Or.inr h
      · exact Or.inl (List.all_eq_true.mp hpad_digit _ (List.drop_subset _ _ h))

/-- Characters appearing in a decimal float rendering. -/
def plainNumChar (c : Char) : Bool := isDigitChar c || c == '.' || c == '-'

theorem fmtQChars_eq {q : ℚ} {k : Nat} (hk : decPow q = some k) :
    fmtQChars q = (if q < 0 then ['-'] else []) ++ fmtQnnChars q.num.natAbs q.den k := by
  unfold fmtQChars
  rw [hk]

theorem fmtQChars_plain {q : ℚ} {k : Nat} (hk : decPow q = some k) {c : Char}
    (hc : c ∈ fmtQChars q) : plainNumChar c = true := by
  rw [fmtQChars_eq hk] at hc
  rcases List.mem_append.mp hc with h | h
  · by_cases hq : q < 0
    · rw [if_pos hq] at h
      simp only [List.mem_cons, List.not_mem_nil, or_false] at h
      subst h
      rfl
    · rw [if_neg hq] at h
      cases h
  · rcases fmtQnnChars_plain h with h | h
    · simp [plainNumChar, h]
    · subst h; rfl

theorem dash_not_mem_fmtQnn {n den k : Nat} : '-' ∉ fmtQnnChars n den k := by
  intro hm
  rcases fmtQnnChars_plain hm with h | h
  · simp [isDigitChar] at h
  · cases h

theorem parseQChars_no_dash {cs : List Char} (h : '-' ∉ cs) :
    parseQChars cs = parseQPos cs := by
  unfold parseQChars
  split
  · next rest => exact absurd (by simp) h
  · rfl

theorem parseQChars_fmtQChars {q : ℚ} (h : q.den ∣ 10 ^ 20) :
    parseQChars (fmtQChars q) = some q := by
  have hfind : ((List.range 21).find? (fun k => decide (q.den ∣ 10 ^ k))).isSome := by
    apply List.find?_isSome.mpr
    exact ⟨20, by simp, by simpa using h⟩
  obtain ⟨k, hk⟩ := Option.isSome_iff_exists.mp hfind
  have hk' : decPow q = some k := hk
  have hdvd : q.den ∣ 10 ^ k := by simpa using List.find?_some hk
  have hden : q.den ≠ 0 := q.den_ne_zero
  rw [fmtQChars_eq hk']
  by_cases hq : q < 0
  · rw [if_pos hq, List.singleton_append]
    show (parseQPos (fmtQnnChars q.num.natAbs q.den k)).map (fun x => -x) = some q
    rw [parseQPos_fmtQnn _ _ _ hden hdvd]
    have hnn : q.num ≤ 0 :=
      le_of_not_le fun hge => absurd (Rat.num_nonneg.mp hge) (not_le_of_lt hq)
    have hcast : ((q.num.natAbs : ℚ)) = -(q.num : ℚ) := by
      have h1 : (q.num.natAbs : ℤ) = -q.num := Int.ofNat_natAbs_of_nonpos hnn
      calc ((q.num.natAbs : ℚ)) = (((q.num.natAbs : ℤ)) : ℚ) := (Int.cast_natCast _).symm
        _ = ((-q.num : ℤ) : ℚ) := by rw [h1]
        _ = -(q.num : ℚ) := Int.cast_neg _
    simp only [Option.map_some']
    rw [hcast, neg_div, neg_neg, Rat.num_div_den]
  · rw [if_neg hq, List.nil_append, parseQChars_no_dash dash_not_mem_fmtQnn,
      parseQPos_fmtQnn _ _ _ hden hdvd]
    have hnn : 0 ≤ q.num := Rat.num_nonneg.mpr (le_of_not_lt hq)
    have hcast : ((q.num.natAbs : ℚ)) = (q.num : ℚ) := by
      have h1 : (q.num.natAbs : ℤ) = q.num := Int.natAbs_of_nonneg hnn
      calc ((q.num.natAbs : ℚ)) = (((q.num.natAbs : ℤ)) : ℚ) := (Int.cast_natCast _).symm
        _ = (q.num : ℚ) := by rw [h1]
    rw [hcast, Rat.num_div_den]

/-- Rationals whose denominator divides a power of ten; every Python float
the GUI serializes prints as such a decimal. -/
def DecimalRat (q : ℚ) : Prop := q.den ∣ 10 ^ 20

instance : DecidablePred DecimalRat := fun q => inferInstanceAs (Decidable (q.den ∣ 10 ^ 20))

theorem parseQ_fmtQ {q : ℚ} (h : DecimalRat q) : parseQ (fmtQ q) = some q :=
  parseQChars_fmtQChars h

/-! ## Timestamps

The GUI handles datetimes with second precision: the serializer writes
them with strftime and the loader reads them back with
datetime.fromisoformat(s.replace('T', ' ')).  The parser below models
fromisoformat on the zero-padded second-precision shape the serializer
emits (fromisoformat also accepts some other ISO shapes; none of the
claims exercise them). -/

structure DateTime where
  year : Nat
  month : Nat
  day : Nat
  hour : Nat
  minute : Nat
  second : Nat
deriving DecidableEq, Repr

def pad2 (n : Nat) : List Char := if n < 10 then '0' :: natToChars n else natToChars n

/-- Characters of strftime output with the given date/time separator
(the serializer uses 'T' for config fields and ' ' in the header). -/
def fmtDT (sep : Char) (dt : DateTime) : List Char :=
  natToChars dt.year ++ '-' ::
    (pad2 dt.month ++ '-' ::
      (pad2 dt.day ++ sep ::
        (pad2 dt.hour ++ ':' ::
          (pad2 dt.minute ++ ':' :: pad2 dt.second))))

/-- strftime('%Y-%m-%dT%H:%M:%S') -/
def fmtIso (dt : DateTime) : String := String.mk (fmtDT 'T' dt)

/-- strftime('%Y-%m-%d %H:%M:%S'), used in the generated-file header. -/
def fmtHeaderTime (dt : DateTime) : String := String.mk (fmtDT ' ' dt)

def isLeapYear (y : Nat) : Bool := (y % 4 == 0 && y % 100 != 0) || y % 400 == 0

def daysInMonth (y m : Nat) : Nat :=
  if m = 2 then (if isLeapYear y then 29 else 28)
  else if m = 4 ∨ m = 6 ∨ m = 9 ∨ m = 11 then 30 else 31

def dtFields (y mo da h mi se : Nat) : Option DateTime :=
  if 1 ≤ mo ∧ mo ≤ 12 ∧ 1 ≤ da ∧ da ≤ daysInMonth y mo ∧ h ≤ 23 ∧ mi ≤ 59 ∧ se ≤ 59
  then some ⟨y, mo, da, h, mi, se⟩ else none

def parseDT6 (y mo da h mi se : List Char) : Option DateTime :=
  if y.length = 4 ∧ mo.length = 2 ∧ da.length = 2 ∧ h.length = 2 ∧ mi.length = 2 ∧
      se.length = 2 then
    match parseNatChars y, parseNatChars mo, parseNatChars da, parseNatChars h,
        parseNatChars mi, parseNatChars se with
    | some yv, some mov, some dav, some hv, some miv, some sev =>
      dtFields yv mov dav hv miv sev
    | _, _, _, _, _, _ => none
  else none

def parseDTPieces (d t : List Char) : Option DateTime :=
  match splitOnChar '-' d, splitOnChar ':' t with
  | [y, mo, da], [h, mi, se] => parseDT6 y mo da h mi se
  | _, _ => none

/-- Models datetime.fromisoformat(s.replace('T', ' ')) on second-precision input. -/
def parseDTChars (cs : List Char) : Option DateTime :=
  match splitOnChar ' ' (cs.map (fun c => if c == 'T' then ' ' else c)) with
  | [d, t] => parseDTPieces d t
  | _ => none

def parseDT (s : String) : Option DateTime := parseDTChars s.data

def ValidDT (dt : DateTime) : Prop :=
  1000 ≤ dt.year ∧ dt.year ≤ 9999 ∧ 1 ≤ dt.month ∧ dt.month ≤ 12 ∧ 1 ≤ dt.day ∧
    dt.day ≤ daysInMonth dt.year dt.month ∧ dt.hour ≤ 23 ∧ dt.minute ≤ 59 ∧ dt.second ≤ 59

instance (dt : DateTime) : Decidable (ValidDT dt) := by
  unfold ValidDT
  infer_instance

theorem not_mem_of_all_digit {cs : List Char} (hall : cs.all isDigitChar = true) (d : Char)
    (hd : isDigitChar d = false) : d ∉ cs := by
  intro hm
  rw [List.all_eq_true] at hall
  rw [hall d hm] at hd
  cases hd

theorem pad2_all_digit (n : Nat) : (pad2 n).all isDigitChar = true := by
  unfold pad2
  by_cases hlt : n < 10
  · rw [if_pos hlt]
    simp only [List.all_cons, Bool.and_eq_true]
    exact ⟨rfl, natToChars_all_digit n⟩
  · rw [if_neg hlt]
    exact natToChars_all_digit n

theorem parseNatChars_pad2 {n : Nat} : parseNatChars (pad2 n) = some n := by
  unfold pad2
  by_cases hlt : n < 10
  · rw [if_pos hlt]
    have := parseNatChars_leading_zeros 1 (natToChars n) (parseNatChars_natToChars n)
    simpa using this
  · rw [if_neg hlt]
    exact parseNatChars_natToChars n

theorem pad2_length : ∀ n < 100, (pad2 n).length = 2 := by decide

theorem natToChars_length_four {y : Nat} (h1 : 1000 ≤ y) (h2 : y ≤ 9999) :
    (natToChars y).length = 4 := by
  have hy0 : y ≠ 0 := by omega
  have hlen : (natToChars y).length = (Nat.digits 10 y).length := by
    rw [natToChars_eq_digits, if_neg hy0, List.length_map, List.length_reverse]
  rw [hlen]
  have hub : y < 10 ^ (Nat.digits 10 y).length := Nat.lt_base_pow_length_digits (by norm_num)
  have hlb : 10 ^ (Nat.digits 10 y).length ≤ 10 * y :=
    Nat.base_pow_length_digits_le 10 y (by norm_num) hy0
  have h4 : 4 ≤ (Nat.digits 10 y).length := by
    by_contra hcon
    push_neg at hcon
    have : (10 : Nat) ^ (Nat.digits 10 y).length ≤ 10 ^ 3 :=
      Nat.pow_le_pow_right (by norm_num) (by omega)
    omega
  have h5 : (Nat.digits 10 y).length ≤ 4 := by
    by_contra hcon
    push_neg at hcon
    have : (10 : Nat) ^ 5 ≤ 10 ^ (Nat.digits 10 y).length :=
      Nat.pow_le_pow_right (by norm_num) (by omega)
    omega
  omega

theorem map_id_of_mem {f : Char → Char} {cs : List Char} (h : ∀ c ∈ cs, f c = c) :
    cs.map f = cs := by
  induction cs with
  | nil => rfl
  | cons c rest ih =>
    simp only [List.map_cons]
    rw [h c (by simp), ih (fun x hx => h x (by simp [hx]))]

theorem repl_digit {c : Char} (h : isDigitChar c = true) :
    (if c == 'T' then ' ' else c) = c := by
  by_cases hb : c = 'T'
  · subst hb
    cases h
  · simp [hb]

theorem daysInMonth_le (y m : Nat) : daysInMonth y m ≤ 31 := by
  unfold daysInMonth
  by_cases h2 : m = 2
  · rw [if_pos h2]
    by_cases hl : isLeapYear y <;> simp [hl]
  · rw [if_neg h2]
    by_cases h4 : m = 4 ∨ m = 6 ∨ m = 9 ∨ m = 11 <;> simp [h4]

theorem parseDTChars_fmtDT {dt : DateTime} (h : ValidDT dt) :
    parseDTChars (fmtDT 'T' dt) = some dt := by
  obtain ⟨hy1, hy2, hmo1, hmo2, hda1, hda2, hh, hmi, hse⟩ := h
  have hd31 : dt.day ≤ 31 := le_trans hda2 (daysInMonth_le _ _)
  have hYd := natToChars_all_digit dt.year
  have hMod := pad2_all_digit dt.month
  have hDad := pad2_all_digit dt.day
  have hHd := pad2_all_digit dt.hour
  have hMid := pad2_all_digit dt.minute
  have hSed := pad2_all_digit dt.second
  have hmap : (fmtDT 'T' dt).map (fun c => if c == 'T' then ' ' else c) = fmtDT ' ' dt := by
    unfold fmtDT
    simp only [List.map_append, List.map_cons]
    rw [map_id_of_mem (fun c hc => repl_digit (List.all_eq_true.mp hYd c hc)),
      map_id_of_mem (fun c hc => repl_digit (List.all_eq_true.mp hMod c hc)),
      map_id_of_mem (fun c hc => repl_digit (List.all_eq_true.mp hDad c hc)),
      map_id_of_mem (fun c hc => repl_digit (List.all_eq_true.mp hHd c hc)),
      map_id_of_mem (fun c hc => repl_digit (List.all_eq_true.mp hMid c hc)),
      map_id_of_mem (fun c hc => repl_digit (List.all_eq_true.mp hSed c hc))]
    rfl
  unfold parseDTChars
  rw [hmap]
  have hdate : ' ' ∉ natToChars dt.year ++ '-' :: (pad2 dt.month ++ '-' :: pad2 dt.day) := by
    intro hm
    rcases List.mem_append.mp hm with hm | hm
    · exact not_mem_of_all_digit hYd ' ' (by decide) hm
    · rcases List.mem_cons.mp hm with hm | hm
      · cases hm
      · rcases List.mem_append.mp hm with hm | hm
        · exact not_mem_of_all_digit hMod ' ' (by decide) hm
        · rcases List.mem_cons.mp hm with hm | hm
          · cases hm
          · exact not_mem_of_all_digit hDad ' ' (by decide) hm
  have htime : ' ' ∉ pad2 dt.hour ++ ':' :: (pad2 dt.minute ++ ':' :: pad2 dt.second) := by
    intro hm
    rcases List.mem_append.mp hm with hm | hm
    · exact not_mem_of_all_digit hHd ' ' (by decide) hm
    · rcases List.mem_cons.mp hm with hm | hm
      · cases hm
      · rcases List.mem_append.mp hm with hm | hm
        · exact not_mem_of_all_digit hMid ' ' (by decide) hm
        · rcases List.mem_cons.mp hm with hm | hm
          · cases hm
          · exact not_mem_of_all_digit hSed ' ' (by decide) hm
  have hassoc : fmtDT ' ' dt =
      (natToChars dt.year ++ '-' :: (pad2 dt.month ++ '-' :: pad2 dt.day)) ++ ' ' ::
        (pad2 dt.hour ++ ':' :: (pad2 dt.minute ++ ':' :: pad2 dt.second)) := by
    unfold fmtDT
    simp [List.append_assoc]
  rw [hassoc, splitOnChar_append_cons _ hdate, splitOnChar_not_mem htime]
  show parseDTPieces _ _ = some dt
  unfold parseDTPieces
  have hdash1 : '-' ∉ natToChars dt.year := not_mem_of_all_digit hYd '-' (by decide)
  have hdash2 : '-' ∉ pad2 dt.month := not_mem_of_all_digit hMod '-' (by decide)
  have hdash3 : '-' ∉ pad2 dt.day := not_mem_of_all_digit hDad '-' (by decide)
  have hcol1 : ':' ∉ pad2 dt.hour := not_mem_of_all_digit hHd ':' (by decide)
  have hcol2 : ':' ∉ pad2 dt.minute := not_mem_of_all_digit hMid ':' (by decide)
  have hcol3 : ':' ∉ pad2 dt.second := not_mem_of_all_digit hSed ':' (by decide)
  rw [splitOnChar_append_cons _ hdash1, splitOnChar_append_cons _ hdash2,
    splitOnChar_not_mem hdash3, splitOnChar_append_cons _ hcol1,
    splitOnChar_append_cons _ hcol2, splitOnChar_not_mem hcol3]
  show parseDT6 _ _ _ _ _ _ = some dt
  unfold parseDT6
  rw [if_pos ⟨natToChars_length_four hy1 hy2, pad2_length _ (by omega), pad2_length _ (by omega),
    pad2_length _ (by omega), pad2_length _ (by omega), pad2_length _ (by omega)⟩]
  rw [parseNatChars_natToChars, parseNatChars_pad2, parseNatChars_pad2, parseNatChars_pad2,
    parseNatChars_pad2, parseNatChars_pad2]
  show dtFields dt.year dt.month dt.day dt.hour dt.minute dt.second = some dt
  unfold dtFields
  rw [if_pos ⟨hmo1, hmo2, hda1, hda2, hh, hmi, hse⟩]

theorem parseDT_fmtIso {dt : DateTime} (h : ValidDT dt) : parseDT (fmtIso dt) = some dt :=
  parseDTChars_fmtDT h

/-! ## The INI reader

Models configparser.ConfigParser(inline_comment_prefixes=("#",)).read as
used at module level of gui_app.py: sectioned key=value lines, keys
lowercased by the default optionxform, values stripped, inline comments
cut at a '#' that starts the line or follows whitespace, ';' and '#'
full-line comments skipped.  Differences from CPython configparser that
no claim input exercises (noted for honesty): duplicate sections or
options raise in strict mode, continuation lines (indented followers)
extend the previous value, and structurally malformed lines raise
ParsingError; here duplicates are kept (lookups take the last), and
malformed lines are skipped. -/

def trimLeftChars (cs : List Char) : List Char := cs.dropWhile isSpaceChar

def trimRightChars (cs : List Char) : List Char :=
  (cs.reverse.dropWhile isSpaceChar).reverse

def trimChars (cs : List Char) : List Char := trimRightChars (trimLeftChars cs)

def lowerChars (cs : List Char) : List Char := cs.map Char.toLower

def lowerStr (s : String) : String := String.mk (lowerChars s.data)

/-- Cut the line at an inline '#' comment: configparser drops from a '#'
that is at index 0 or preceded by a whitespace character. -/
def cutInline : Bool → List Char → List Char
  | _, [] => []
  | prev, c :: rest =>
    if c == '#' && prev then []
    else c :: cutInline (isSpaceChar c) rest

def cutInlineLine (cs : List Char) : List Char := cutInline true cs

/-- Split at the first '=' or ':' delimiter, as the configparser option
regex does. -/
def splitKV : List Char → Option (List Char × List Char)
  | [] => none
  | c :: rest =>
    if c = '=' ∨ c = ':' then some ([], rest)
    else (splitKV rest).map (fun p => (c :: p.1, p.2))

structure IniEntry where
  sec : String
  key : String
  val : String
deriving DecidableEq, Repr

structure IniData where
  sections : List String
  entries : List IniEntry
deriving DecidableEq, Repr

/-- Process a stripped nonempty line: ';' comment, section header, or
key=value option (malformed lines are skipped, see the note above). -/
def procCons (st : String × IniData) (c : Char) (rest : List Char) : String × IniData :=
  if c = ';' then st
  else if c = '[' ∧ (c :: rest).getLast? = some ']' then
    (String.mk rest.dropLast, ⟨st.2.sections ++ [String.mk rest.dropLast], st.2.entries⟩)
  else
    match splitKV (c :: rest) with
    | some (k, v) =>
      (st.1, ⟨st.2.sections,
        st.2.entries ++
          [⟨st.1, String.mk (lowerChars (trimChars k)), String.mk (trimChars v)⟩]⟩)
    | none => st

/-- Process one physical line of the file (current section, data so far). -/
def procLine (st : String × IniData) (line : List Char) : String × IniData :=
  match trimChars (cutInlineLine line) with
  | [] => st
  | c :: rest => procCons st c rest

def parseIniChars (cs : List Char) : IniData :=
  ((splitOnChar '\n' cs).foldl procLine ("", ⟨[], []⟩)).2

def parseIni (s : String) : IniData := parseIniChars s.data

/-- parser.get(sec, KEY): the queried option name is lowercased by
optionxform; the last stored value wins. -/
def iniGet (d : IniData) (sec key : String) : Option String :=
  ((d.entries.filter (fun e => e.sec == sec && e.key == lowerStr key)).getLast?).map
    IniEntry.val

/-- The `"SECTION" in parser` test (section names are case-sensitive). -/
def hasSection (d : IniData) (sec : String) : Bool := d.sections.contains sec

/-- configparser BOOLEAN_STATES; getboolean raises on any other value,
modelled as none. -/
def pyBool (s : String) : Option Bool :=
  let l := lowerStr s
  if l == "1" || l == "yes" || l == "true" || l == "on" then some true
  else if l == "0" || l == "no" || l == "false" || l == "off" then some false
  else none

/-! Trimming lemmas used to push symbolic values through procLine. -/

theorem dropWhile_append_cons {p : Char → Bool} {m : Char} (x y : List Char)
    (hm : p m = false) :
    List.dropWhile p (x ++ m :: y) = List.dropWhile p x ++ m :: y := by
  rw [List.dropWhile_append]
  by_cases he : (List.dropWhile p x).isEmpty
  · rw [if_pos he, List.dropWhile_cons_of_neg (by simp [hm]), List.isEmpty_iff.mp he,
      List.nil_append]
  · rw [if_neg he]

theorem trimRight_append_cons (m : Char) (a b : List Char) (hm : isSpaceChar m = false) :
    trimRightChars (a ++ m :: b) = a ++ m :: trimRightChars b := by
  unfold trimRightChars
  rw [List.reverse_append, List.reverse_cons, List.append_assoc, List.singleton_append,
    dropWhile_append_cons _ _ hm, List.reverse_append, List.reverse_cons,
    List.reverse_reverse]
  simp

theorem trimLeft_cons_of_nonspace {c : Char} (x : List Char) (hc : isSpaceChar c = false) :
    trimLeftChars (c :: x) = c :: x :=
  List.dropWhile_cons_of_neg (by simp [hc])

theorem trimLeft_cons_of_space {c : Char} (x : List Char) (hc : isSpaceChar c = true) :
    trimLeftChars (c :: x) = trimLeftChars x :=
  List.dropWhile_cons_of_pos hc

theorem trimRight_cons_eq (c : Char) (x : List Char) :
    trimRightChars (c :: x) =
      if trimRightChars x = [] then (if isSpaceChar c then [] else [c])
      else c :: trimRightChars x := by
  unfold trimRightChars
  rw [List.reverse_cons, List.dropWhile_append]
  by_cases he : (List.dropWhile isSpaceChar x.reverse).isEmpty
  · rw [if_pos he]
    rw [if_pos (by rw [List.isEmpty_iff.mp he]; rfl)]
    by_cases hc : isSpaceChar c
    · rw [if_pos hc]
      simp [List.dropWhile, hc]
    · rw [if_neg hc]
      simp [List.dropWhile, hc]
  · rw [if_neg he]
    rw [if_neg (by
      intro hcon
      rw [List.reverse_eq_nil_iff] at hcon
      rw [hcon] at he
      exact he rfl)]
    rw [List.reverse_append]
    simp

theorem trim_comm (x : List Char) :
    trimLeftChars (trimRightChars x) = trimRightChars (trimLeftChars x) := by
  induction x with
  | nil => rfl
  | cons c x ih =>
    by_cases hc : isSpaceChar c
    · rw [trimLeft_cons_of_space x hc, trimRight_cons_eq]
      by_cases hz : trimRightChars x = []
      · rw [if_pos hz, if_pos hc]
        rw [hz] at ih
        simpa using ih
      · rw [if_neg hz, trimLeft_cons_of_space _ hc]
        exact ih
    · have hc' : isSpaceChar c = false := by
        cases h : isSpaceChar c
        · rfl
        · exact absurd h hc
      rw [trimLeft_cons_of_nonspace x hc', trimRight_cons_eq]
      by_cases hz : trimRightChars x = []
      · rw [if_pos hz, if_neg hc]
        exact trimLeft_cons_of_nonspace [] hc'
      · rw [if_neg hz]
        exact trimLeft_cons_of_nonspace _ hc'

theorem trimRight_idem (x : List Char) :
    trimRightChars (trimRightChars x) = trimRightChars x := by
  unfold trimRightChars
  rw [List.reverse_reverse, List.dropWhile_idempotent]

theorem trimChars_trimRight (v : List Char) :
    trimChars (trimRightChars v) = trimChars v := by
  unfold trimChars
  rw [← trim_comm v, ← trim_comm (trimRightChars v), trimRight_idem]

theorem trimLeft_space_cons (y : List Char) : trimLeftChars (' ' :: y) = trimLeftChars y :=
  trimLeft_cons_of_space y rfl

theorem trimChars_space_cons (y : List Char) : trimChars (' ' :: y) = trimChars y := by
  unfold trimChars
  rw [trimLeft_space_cons y]

theorem cutInline_no_hash {cs : List Char} (h : '#' ∉ cs) :
    ∀ prev, cutInline prev cs = cs := by
  induction cs with
  | nil => intro prev; rfl
  | cons c rest ih =>
    intro prev
    have hc : ¬(c == '#') := by
      simp only [beq_iff_eq]
      intro hcc
      exact h (by simp [hcc])
    unfold cutInline
    rw [if_neg (by simp [hc]), ih (fun hm => h (List.mem_cons_of_mem _ hm))]

theorem splitKV_append {k : List Char} (v : List Char)
    (h : ∀ c ∈ k, ¬(c = '=' ∨ c = ':')) :
    splitKV (k ++ '=' :: v) = some (k, v) := by
  induction k with
  | nil =>
    show splitKV ('=' :: v) = some ([], v)
    unfold splitKV
    rw [if_pos (Or.inl rfl)]
  | cons c rest ih =>
    simp only [List.cons_append]
    unfold splitKV
    rw [if_neg (h c (by simp)), ih (fun x hx => h x (by simp [hx]))]
    rfl

/-! ## The ParameterSet and the config serializer

ParameterSet collects, with the types they have at serialization time,
the values the Save-Config serializer (gui_app.py lines 1374-1425)
interpolates: the widget outputs of the General/ROI/POI/Landcover/Meteo
tabs plus the two effective mask flags held in session state.  Floats
are the decimal rationals they print as, ints are Nat/Int. -/

structure Poi where
  name : String
  x : ℚ
  y : ℚ
  z : ℚ
deriving DecidableEq, Repr

structure ParameterSet where
  simuName : String
  startDt : DateTime
  endDt : DateTime
  poiX : ℚ
  poiY : ℚ
  poiZ : ℚ
  useShapefile : Bool
  roiSize : Nat
  roiShapefile : String
  bufferSize : Nat
  coordSys : String
  gsd : ℚ
  gsdRef : ℚ
  maskDem : Bool
  maskLus : Bool
  lusSource : String
  lusConstant : Int
  pois : List Poi
deriving DecidableEq, Repr

/-- The {'true' if b else 'false'} interpolations. -/
def boolPy (b : Bool) : String := if b then "true" else "false"

/-- One `[POIS]` line: f-string name = x,y,z (line 1420). -/
def poiLine (p : Poi) : String :=
  p.name ++ " = " ++ fmtQ p.x ++ "," ++ fmtQ p.y ++ "," ++ fmtQ p.z

/-- The two comment lines and blank line the f-string header opens with
(lines 1374-1376); the second interpolates datetime.now(). -/
def headerLines (now : DateTime) : List String :=
  ["# A3Dshell Configuration", "# Generated: " ++ fmtHeaderTime now, ""]

/-- The INI body, one list element per line of the source f-string and
the subsequent config_content += lines (1377-1420). -/
def bodyLines (p : ParameterSet) : List String :=
  ["[GENERAL]",
   "SIMULATION_NAME = " ++ p.simuName,
   "START_DATE = " ++ fmtIso p.startDt,
   "END_DATE = " ++ fmtIso p.endDt,
   "",
   "[INPUT]",
   "EAST_epsg2056 = " ++ fmtQ p.poiX,
   "NORTH_epsg2056 = " ++ fmtQ p.poiY,
   "altLV95 = " ++ fmtQ p.poiZ,
   "USE_SHP_ROI = " ++ boolPy p.useShapefile,
   (if p.useShapefile then "ROI_SHAPEFILE = " ++ p.roiShapefile
    else "ROI = " ++ natToStr p.roiSize),
   "BUFFERSIZE = " ++ natToStr p.bufferSize,
   "",
   "[OUTPUT]",
   "OUT_COORDSYS = " ++ p.coordSys,
   "GSD = " ++ fmtQ p.gsd,
   "GSD_ref = " ++ fmtQ p.gsdRef,
   "DEM_ADDFMTLIST =",
   "MESH_FMT = vtu",
   "MASK_DEM_TO_POLYGON = " ++ boolPy p.maskDem,
   "MASK_LUS_TO_POLYGON = " ++ boolPy p.maskLus,
   "",
   "[MAPS]",
   "PLOT_HORIZON = false",
   "",
   "[A3D]",
   "USE_GROUNDEYE = false",
   "LUS_SOURCE = " ++ p.lusSource] ++
  (if p.lusSource = "constant" then ["LUS_PREVAH_CST = " ++ intToStr p.lusConstant]
   else []) ++
  ["DO_PVP_3D = false",
   "PVP_3D_FMT = vtu",
   "SP_BIN_PATH = snowpack"] ++
  (if p.pois.isEmpty then [] else "" :: "[POIS]" :: p.pois.map poiLine)

def configLines (p : ParameterSet) (now : DateTime) : List String :=
  headerLines now ++ bodyLines p

/-- Join lines, each terminated by a newline, as the += "...\n"
concatenation builds the file. -/
def joinLn : List (List Char) → List Char
  | [] => []
  | l :: rest => l ++ '\n' :: joinLn rest

def serializeChars (p : ParameterSet) (now : DateTime) : List Char :=
  joinLn ((configLines p now).map String.data)

/-- The Save-Config serialization (gui_app.py lines 1374-1425): header
comments plus the sectioned key=value body, one trailing newline per
line.  now is the datetime.now() read in the header f-string. -/
def serialize (p : ParameterSet) (now : DateTime) : String :=
  String.mk (serializeChars p now)

/-- The f-string header as one prefix string (used to state that repeat
serializations differ only here). -/
def headerTextOf (now : DateTime) : String :=
  String.mk (joinLn ((headerLines now).map String.data))

def bodyTextOf (p : ParameterSet) : String :=
  String.mk (joinLn ((bodyLines p).map String.data))

theorem joinLn_append (a b : List (List Char)) :
    joinLn (a ++ b) = joinLn a ++ joinLn b := by
  induction a with
  | nil => rfl
  | cons l rest ih =>
    show l ++ '\n' :: joinLn (rest ++ b) = (l ++ '\n' :: joinLn rest) ++ joinLn b
    rw [ih]
    simp

theorem serialize_header_body (p : ParameterSet) (now : DateTime) :
    serialize p now = headerTextOf now ++ bodyTextOf p := by
  show String.mk _ = String.mk _ ++ String.mk _
  unfold serializeChars configLines
  rw [List.map_append, joinLn_append]
  rfl

theorem splitOnChar_joinLn {ls : List (List Char)} (h : ∀ l ∈ ls, '\n' ∉ l) :
    splitOnChar '\n' (joinLn ls) = ls ++ [[]] := by
  induction ls with
  | nil => rfl
  | cons l rest ih =>
    show splitOnChar '\n' (l ++ '\n' :: joinLn rest) = _
    rw [splitOnChar_append_cons _ (h l (by simp)), ih (fun x hx => h x (by simp [hx]))]
    rfl

/-! ## The deserializer (config loading plus widget defaults)

hydrate models gui_app.py lines 393-427: the selected .ini file is read
with configparser and copied field-by-field into st.session_state.config,
each guarded by section presence, with the documented fallbacks.  A field
is none when the source never assigns the key.  The result is none when
the body raises (getboolean on a non-boolean value).

widgetParams models the widget layer that turns the hydrated session
config into the values the serializer later consumes: dict .get defaults
for unassigned keys, float()/int() coercions (none models the raised
ValueError on non-numeric text), the coordinate-system and reference-GSD
selectboxes whose .index() raises on unknown values, the max() floor on
the output GSD, the land-cover normalization, the date try/except
defaults, and the mask/POI state a fresh session starts with. -/

structure SessionConfig where
  simuName? : Option String
  startDate? : Option String
  endDate? : Option String
  poiX? : Option String
  poiY? : Option String
  poiZ? : Option String
  useShp? : Option Bool
  roiSize? : Option String
  bufferSize? : Option String
  roiShapefile? : Option String
  coordSys? : Option String
  gsd? : Option String
  gsdRef? : Option String
  lusSource? : Option String
  lusCst? : Option String
deriving DecidableEq, Repr

/-- config['use_shp'] hydration: getboolean with fallback False (line 408). -/
def sessionUseShp (d : IniData) : Option (Option Bool) :=
  if hasSection d "INPUT" then
    match iniGet d "INPUT" "USE_SHP_ROI" with
    | some v => (pyBool v).map some
    | none => some (some false)
  else some none

/-- config['lus_source'] hydration: new LUS_SOURCE key first, else the
legacy boolean USE_LUS_TLM (true -> tlm, false -> constant), else tlm
(lines 419-426). -/
def sessionLusSource (d : IniData) : Option (Option String) :=
  if hasSection d "A3D" then
    match iniGet d "A3D" "LUS_SOURCE" with
    | some v => some (some v)
    | none =>
      match iniGet d "A3D" "USE_LUS_TLM" with
      | some w => (pyBool w).map (fun b => some (if b then "tlm" else "constant"))
      | none => some (some "tlm")
  else some none

def hydrate (d : IniData) : Option SessionConfig :=
  match sessionUseShp d, sessionLusSource d with
  | some u, some l =>
    some
      { simuName? :=
          if hasSection d "GENERAL" then some ((iniGet d "GENERAL" "SIMULATION_NAME").getD "")
          else none
        startDate? :=
          if hasSection d "GENERAL" then some ((iniGet d "GENERAL" "START_DATE").getD "")
          else none
        endDate? :=
          if hasSection d "GENERAL" then some ((iniGet d "GENERAL" "END_DATE").getD "")
          else none
        poiX? :=
          if hasSection d "INPUT" then some ((iniGet d "INPUT" "EAST_epsg2056").getD "")
          else none
        poiY? :=
          if hasSection d "INPUT" then some ((iniGet d "INPUT" "NORTH_epsg2056").getD "")
          else none
        poiZ? :=
          if hasSection d "INPUT" then some ((iniGet d "INPUT" "altLV95").getD "")
          else none
        useShp? := u
        roiSize? :=
          if hasSection d "INPUT" then some ((iniGet d "INPUT" "ROI").getD "1000")
          else none
        bufferSize? :=
          if hasSection d "INPUT" then some ((iniGet d "INPUT" "BUFFERSIZE").getD "50000")
          else none
        roiShapefile? :=
          if hasSection d "INPUT" then some ((iniGet d "INPUT" "ROI_SHAPEFILE").getD "")
          else none
        coordSys? :=
          if hasSection d "OUTPUT" then some ((iniGet d "OUTPUT" "OUT_COORDSYS").getD "CH1903+")
          else none
        gsd? :=
          if hasSection d "OUTPUT" then some ((iniGet d "OUTPUT" "GSD").getD "10.0")
          else none
        gsdRef? :=
          if hasSection d "OUTPUT" then some ((iniGet d "OUTPUT" "GSD_ref").getD "2.0")
          else none
        lusSource? := l
        lusCst? :=
          if hasSection d "A3D" then some ((iniGet d "A3D" "LUS_PREVAH_CST").getD "11500")
          else none }
  | _, _ => none

def coordList : List String := ["CH1903+", "CH1903", "WGS84"]

def lusList : List String := ["tlm", "bfs", "constant"]

def defaultStart : DateTime := ⟨2023, 10, 1, 0, 0, 0⟩

def defaultEnd : DateTime := ⟨2023, 10, 31, 23, 59, 59⟩

/-- The try/except-guarded date hydration (lines 470-480): the stored
string is parsed only when truthy, and any parse failure keeps the
default. -/
def widgetDate (s? : Option String) (dflt : DateTime) : DateTime :=
  match s? with
  | some s => if s ≠ "" then (parseDT s).getD dflt else dflt
  | none => dflt

def widgetParams (c : SessionConfig) : Option ParameterSet := do
  let simuName := c.simuName?.getD ""
  let startDt := widgetDate c.startDate? defaultStart
  let endDt := widgetDate c.endDate? defaultEnd
  let coordSys := c.coordSys?.getD "CH1903+"
  guard (coordSys ∈ coordList)
  let poiX ← match c.poiX? with
    | some s => parseQ s
    | none => some (645000 : ℚ)
  let poiY ← match c.poiY? with
    | some s => parseQ s
    | none => some (115000 : ℚ)
  let poiZ ← match c.poiZ? with
    | some s => parseQ s
    | none => some (1500 : ℚ)
  let useShapefile := c.useShp?.getD true
  let roiSize ← match c.roiSize? with
    | some s => parseNatChars s.data
    | none => some 1000
  let bufferSize ← match c.bufferSize? with
    | some s => parseNatChars s.data
    | none => some 10000
  let roiShapefile := c.roiShapefile?.getD ""
  let gsdRaw ← match c.gsd? with
    | some s => parseQ s
    | none => some (10 : ℚ)
  let gsdRef ← match c.gsdRef? with
    | some s => parseQ s
    | none => some (2 : ℚ)
  guard (gsdRef ∈ ([1/2, 2] : List ℚ))
  let gsd := max gsdRaw gsdRef
  let lusRaw := c.lusSource?.getD "tlm"
  let lusSource := if lusRaw ∈ lusList then lusRaw else "tlm"
  let lusConstant ← match c.lusCst? with
    | some s => parseIntChars s.data
    | none => some (11500 : Int)
  pure
    { simuName := simuName
      startDt := startDt
      endDt := endDt
      poiX := poiX
      poiY := poiY
      poiZ := poiZ
      useShapefile := useShapefile
      roiSize := roiSize
      roiShapefile := roiShapefile
      bufferSize := bufferSize
      coordSys := coordSys
      gsd := gsd
      gsdRef := gsdRef
      maskDem := true
      maskLus := true
      lusSource := lusSource
      lusConstant := lusConstant
      pois := [] }

/-- Loading a stored file: parse it, hydrate the session config, then
read it back through the widget layer. -/
def deserialize (text : String) : Option ParameterSet :=
  (hydrate (parseIni text)).bind widgetParams

/-! ## INI-safe values

A serialized value survives the line format when it contains no newline
and no '#', and stripping does not change it. -/

def cleanVal (s : String) : Prop :=
  '\n' ∉ s.data ∧ '#' ∉ s.data ∧ trimChars s.data = s.data

instance (s : String) : Decidable (cleanVal s) := by
  unfold cleanVal
  infer_instance

theorem dropWhile_of_all_neg {p : Char → Bool} {cs : List Char}
    (h : ∀ c ∈ cs, p c = false) : List.dropWhile p cs = cs := by
  cases cs with
  | nil => rfl
  | cons c x => exact List.dropWhile_cons_of_neg (by simp [h c (by simp)])

theorem trim_of_no_space {cs : List Char} (h : ∀ c ∈ cs, isSpaceChar c = false) :
    trimChars cs = cs := by
  unfold trimChars trimLeftChars trimRightChars
  rw [dropWhile_of_all_neg h, dropWhile_of_all_neg (fun c hc => h c (List.mem_reverse.mp hc)),
    List.reverse_reverse]

theorem digit_not_special {c : Char} (h : isDigitChar c = true) :
    isSpaceChar c = false ∧ c ≠ '\n' ∧ c ≠ '#' := by
  refine ⟨?_, ?_, ?_⟩
  · cases hs : isSpaceChar c
    · rfl
    · exfalso
      have hs' : (c == ' ') = true ∨ (c == '\t') = true := by
        have := hs
        unfold isSpaceChar at this
        simpa [Bool.or_eq_true] using this
      rcases hs' with h1 | h1
      · rw [beq_iff_eq] at h1
        subst h1
        exact absurd h (by decide)
      · rw [beq_iff_eq] at h1
        subst h1
        exact absurd h (by decide)
  · intro hcc
    subst hcc
    exact absurd h (by decide)
  · intro hcc
    subst hcc
    exact absurd h (by decide)

theorem plain_not_special {c : Char} (h : plainNumChar c = true) :
    isSpaceChar c = false ∧ c ≠ '\n' ∧ c ≠ '#' := by
  unfold plainNumChar at h
  simp only [Bool.or_eq_true] at h
  rcases h with (h2 | h2) | h1
  · exact digit_not_special h2
  · rw [beq_iff_eq] at h2
    subst h2
    exact ⟨rfl, by decide, by decide⟩
  · rw [beq_iff_eq] at h1
    subst h1
    exact ⟨rfl, by decide, by decide⟩

theorem decPow_isSome {q : ℚ} (h : DecimalRat q) : ∃ k, decPow q = some k := by
  have hfind : ((List.range 21).find? (fun k => decide (q.den ∣ 10 ^ k))).isSome :=
    List.find?_isSome.mpr ⟨20, by simp, by simpa using h⟩
  obtain ⟨k, hk⟩ := Option.isSome_iff_exists.mp hfind
  exact ⟨k, hk⟩

theorem cleanVal_of_plain {s : String} (h : ∀ c ∈ s.data, plainNumChar c = true) :
    cleanVal s := by
  refine ⟨?_, ?_, trim_of_no_space (fun c hc => (plain_not_special (h c hc)).1)⟩
  · intro hm
    exact (plain_not_special (h _ hm)).2.1 rfl
  · intro hm
    exact (plain_not_special (h _ hm)).2.2 rfl

theorem fmtQ_clean {q : ℚ} (h : DecimalRat q) : cleanVal (fmtQ q) := by
  obtain ⟨k, hk⟩ := decPow_isSome h
  exact cleanVal_of_plain (fun c hc => fmtQChars_plain hk hc)

theorem natToStr_clean (n : Nat) : cleanVal (natToStr n) := by
  apply cleanVal_of_plain
  intro c hc
  have := List.all_eq_true.mp (natToChars_all_digit n) c hc
  simp [plainNumChar, this]

theorem intToStr_clean (i : Int) : cleanVal (intToStr i) := by
  apply cleanVal_of_plain
  intro c hc
  show plainNumChar c = true
  have hc' : c ∈ intToChars i := hc
  unfold intToChars at hc'
  by_cases hi : i < 0
  · rw [if_pos hi] at hc'
    rcases List.mem_cons.mp hc' with h1 | h1
    · subst h1; rfl
    · have := List.all_eq_true.mp (natToChars_all_digit _) c h1
      simp [plainNumChar, this]
  · rw [if_neg hi] at hc'
    have := List.all_eq_true.mp (natToChars_all_digit _) c hc'
    simp [plainNumChar, this]

theorem boolPy_clean (b : Bool) : cleanVal (boolPy b) := by
  cases b <;> decide

theorem fmtDT_charset {sep : Char} {dt : DateTime} {c : Char} (hc : c ∈ fmtDT sep dt) :
    isDigitChar c = true ∨ c = '-' ∨ c = ':' ∨ c = sep := by
  unfold fmtDT at hc
  have hdig : ∀ {cs : List Char}, cs.all isDigitChar = true → c ∈ cs →
      isDigitChar c = true ∨ c = '-' ∨ c = ':' ∨ c = sep :=
    fun hall hm => Or.inl (List.all_eq_true.mp hall _ hm)
  rcases List.mem_append.mp hc with h | h
  · exact hdig (natToChars_all_digit _) h
  rcases List.mem_cons.mp h with h | h
  · exact Or.inr (Or.inl h)
  rcases List.mem_append.mp h with h | h
  · exact hdig (pad2_all_digit _) h
  rcases List.mem_cons.mp h with h | h
  · exact Or.inr (Or.inl h)
  rcases List.mem_append.mp h with h | h
  · exact hdig (pad2_all_digit _) h
  rcases List.mem_cons.mp h with h | h
  · exact Or.inr (Or.inr (Or.inr h))
  rcases List.mem_append.mp h with h | h
  · exact hdig (pad2_all_digit _) h
  rcases List.mem_cons.mp h with h | h
  · exact Or.inr (Or.inr (Or.inl h))
  rcases List.mem_append.mp h with h | h
  · exact hdig (pad2_all_digit _) h
  rcases List.mem_cons.mp h with h | h
  · exact Or.inr (Or.inr (Or.inl h))
  · exact hdig (pad2_all_digit _) h

theorem fmtIso_clean (dt : DateTime) : cleanVal (fmtIso dt) := by
  refine ⟨?_, ?_, trim_of_no_space ?_⟩
  · intro hmem
    rcases fmtDT_charset hmem with h | h | h | h
    · exact (digit_not_special h).2.1 rfl
    · exact absurd h (by decide)
    · exact absurd h (by decide)
    · exact absurd h (by decide)
  · intro hmem
    rcases fmtDT_charset hmem with h | h | h | h
    · exact (digit_not_special h).2.2 rfl
    · exact absurd h (by decide)
    · exact absurd h (by decide)
    · exact absurd h (by decide)
  · intro c hc
    rcases fmtDT_charset hc with h | h | h | h
    · exact (digit_not_special h).1
    · subst h; rfl
    · subst h; rfl
    · subst h; rfl

theorem fmtHeaderTime_no_newline (dt : DateTime) : '\n' ∉ (fmtHeaderTime dt).data := by
  intro hmem
  rcases fmtDT_charset hmem with h | h | h | h
  · exact (digit_not_special h).2.1 rfl
  · exact absurd h (by decide)
  · exact absurd h (by decide)
  · exact absurd h (by decide)

theorem fmtIso_ne_empty (dt : DateTime) : fmtIso dt ≠ "" := by
  intro hcon
  have : (fmtIso dt).data = [] := by rw [hcon]
  unfold fmtIso fmtDT at this
  rcases List.append_eq_nil.mp this with ⟨h1, h2⟩
  exact natToChars_ne_nil dt.year h1

/-! ## Per-line-shape lemmas for the INI reader -/

theorem procLine_nil (st : String × IniData) : procLine st [] = st := rfl

theorem procLine_hash (st : String × IniData) (cs : List Char) :
    procLine st ('#' :: cs) = st := rfl

theorem hash_not_mem_space_cons {x : String} (hx : '#' ∉ x.data) : '#' ∉ ' ' :: x.data := by
  intro hm
  rcases List.mem_cons.mp hm with h | h
  · exact absurd h (by decide)
  · exact hx h

/-- A key is usable on an option line when it is nonempty, starts with a
character that is not whitespace, ';' or '[', and contains no delimiter
or comment character. -/
def goodKey (k : List Char) : Bool :=
  match k with
  | [] => false
  | c :: _ =>
    !isSpaceChar c && !(c == ';') && !(c == '[') &&
      k.all (fun x => !(x == '=') && !(x == ':') && !(x == '#'))

theorem procLine_kv (s : String) (d : IniData) (k v : List Char)
    (hk : goodKey k = true) (hv : '#' ∉ v) :
    procLine (s, d) (k ++ '=' :: v) =
      (s, ⟨d.sections,
        d.entries ++
          [⟨s, String.mk (lowerChars (trimChars k)), String.mk (trimChars v)⟩]⟩) := by
  rcases k with _ | ⟨kh, kt⟩
  · cases hk
  unfold goodKey at hk
  simp only [Bool.and_eq_true, Bool.not_eq_true', beq_eq_false_iff_ne, ne_eq,
    List.all_eq_true] at hk
  obtain ⟨⟨⟨hsp, hsemi⟩, hbr⟩, hall⟩ := hk
  have hdelim : ∀ c ∈ kh :: kt, ¬(c = '=' ∨ c = ':') := by
    intro c hc hcon
    obtain ⟨⟨h1, h2⟩, _⟩ := hall c hc
    rcases hcon with hcon | hcon
    · exact h1 hcon
    · exact h2 hcon
  have hline : '#' ∉ (kh :: kt) ++ '=' :: v := by
    intro hm
    rcases List.mem_append.mp hm with hm | hm
    · exact (hall _ hm).2 rfl
    · rcases List.mem_cons.mp hm with hm | hm
      · exact absurd hm (by decide)
      · exact hv hm
  have ht : trimChars (cutInlineLine ((kh :: kt) ++ '=' :: v)) =
      kh :: (kt ++ '=' :: trimRightChars v) := by
    rw [show cutInlineLine ((kh :: kt) ++ '=' :: v) = (kh :: kt) ++ '=' :: v from
      cutInline_no_hash hline true]
    unfold trimChars
    rw [show (kh :: kt) ++ '=' :: v = kh :: (kt ++ '=' :: v) from rfl,
      trimLeft_cons_of_nonspace _ hsp,
      show kh :: (kt ++ '=' :: v) = (kh :: kt) ++ '=' :: v from rfl,
      trimRight_append_cons '=' (kh :: kt) v rfl]
    rfl
  unfold procLine
  rw [ht]
  show procCons (s, d) kh (kt ++ '=' :: trimRightChars v) = _
  unfold procCons
  rw [if_neg hsemi, if_neg (fun hcon => hbr hcon.1)]
  rw [show splitKV (kh :: (kt ++ '=' :: trimRightChars v)) =
      splitKV ((kh :: kt) ++ '=' :: trimRightChars v) from rfl,
    splitKV_append _ hdelim]
  show (s, IniData.mk d.sections
      (d.entries ++ [IniEntry.mk s (String.mk (lowerChars (trimChars (kh :: kt))))
        (String.mk (trimChars (trimRightChars v)))])) = _
  rw [trimChars_trimRight]

/-- The option lines the serializer writes: LITKEY ++ " = " ++ value. -/
theorem procLine_genline (s : String) (d : IniData) (k : List Char) (x : String)
    (hk : goodKey k = true) (hx : cleanVal x) :
    procLine (s, d) (k ++ '=' :: ' ' :: x.data) =
      (s, ⟨d.sections,
        d.entries ++ [⟨s, String.mk (lowerChars (trimChars k)), x⟩]⟩) := by
  rw [procLine_kv s d k (' ' :: x.data) hk (hash_not_mem_space_cons hx.2.1)]
  rw [trimChars_space_cons, hx.2.2]

theorem procLine_secGENERAL (st : String × IniData) :
    procLine st ("[GENERAL]").data =
      ("GENERAL", ⟨st.2.sections ++ ["GENERAL"], st.2.entries⟩) := rfl

theorem procLine_secINPUT (st : String × IniData) :
    procLine st ("[INPUT]").data =
      ("INPUT", ⟨st.2.sections ++ ["INPUT"], st.2.entries⟩) := rfl

theorem procLine_secOUTPUT (st : String × IniData) :
    procLine st ("[OUTPUT]").data =
      ("OUTPUT", ⟨st.2.sections ++ ["OUTPUT"], st.2.entries⟩) := rfl

theorem procLine_secMAPS (st : String × IniData) :
    procLine st ("[MAPS]").data =
      ("MAPS", ⟨st.2.sections ++ ["MAPS"], st.2.entries⟩) := rfl

theorem procLine_secA3D (st : String × IniData) :
    procLine st ("[A3D]").data =
      ("A3D", ⟨st.2.sections ++ ["A3D"], st.2.entries⟩) := rfl

theorem procLine_demadd (st : String × IniData) :
    procLine st ("DEM_ADDFMTLIST =").data =
      (st.1, ⟨st.2.sections, st.2.entries ++ [⟨st.1, "dem_addfmtlist", ""⟩]⟩) := rfl

theorem procLine_meshfmt (st : String × IniData) :
    procLine st ("MESH_FMT = vtu").data =
      (st.1, ⟨st.2.sections, st.2.entries ++ [⟨st.1, "mesh_fmt", "vtu"⟩]⟩) := rfl

theorem procLine_plothor (st : String × IniData) :
    procLine st ("PLOT_HORIZON = false").data =
      (st.1, ⟨st.2.sections, st.2.entries ++ [⟨st.1, "plot_horizon", "false"⟩]⟩) := rfl

theorem procLine_groundeye (st : String × IniData) :
    procLine st ("USE_GROUNDEYE = false").data =
      (st.1, ⟨st.2.sections, st.2.entries ++ [⟨st.1, "use_groundeye", "false"⟩]⟩) := rfl

theorem procLine_dopvp (st : String × IniData) :
    procLine st ("DO_PVP_3D = false").data =
      (st.1, ⟨st.2.sections, st.2.entries ++ [⟨st.1, "do_pvp_3d", "false"⟩]⟩) := rfl

theorem procLine_pvpfmt (st : String × IniData) :
    procLine st ("PVP_3D_FMT = vtu").data =
      (st.1, ⟨st.2.sections, st.2.entries ++ [⟨st.1, "pvp_3d_fmt", "vtu"⟩]⟩) := rfl

theorem procLine_spbin (st : String × IniData) :
    procLine st ("SP_BIN_PATH = snowpack").data =
      (st.1, ⟨st.2.sections, st.2.entries ++ [⟨st.1, "sp_bin_path", "snowpack"⟩]⟩) := rfl

/-- The spatial-mode line: ROI_SHAPEFILE in shapefile mode, ROI size
otherwise. -/
theorem procLine_roiline (s : String) (d : IniData) (p : ParameterSet)
    (hshp : cleanVal p.roiShapefile) :
    procLine (s, d)
      ((if p.useShapefile then "ROI_SHAPEFILE = " ++ p.roiShapefile
        else "ROI = " ++ natToStr p.roiSize)).data =
      (s, ⟨d.sections,
        d.entries ++
          [if p.useShapefile then ⟨s, "roi_shapefile", p.roiShapefile⟩
           else ⟨s, "roi", natToStr p.roiSize⟩]⟩) := by
  by_cases hu : p.useShapefile
  · rw [if_pos hu, if_pos hu]
    rw [show ("ROI_SHAPEFILE = " ++ p.roiShapefile).data =
      "ROI_SHAPEFILE ".data ++ '=' :: ' ' :: p.roiShapefile.data from rfl]
    rw [procLine_genline s d _ _ (by decide) hshp]
    rfl
  · rw [if_neg hu, if_neg hu]
    rw [show ("ROI = " ++ natToStr p.roiSize).data =
      "ROI ".data ++ '=' :: ' ' :: (natToStr p.roiSize).data from rfl]
    rw [procLine_genline s d _ _ (by decide) (natToStr_clean _)]
    rfl

/-- Folding the optional LUS_PREVAH_CST line, the three fixed A3D tail
lines, and the final empty line left by the trailing newline. -/
theorem foldl_tailA3D (s : String) (d : IniData) (p : ParameterSet) :
    List.foldl procLine (s, d)
      (List.map String.data
        ((if p.lusSource = "constant" then ["LUS_PREVAH_CST = " ++ intToStr p.lusConstant]
          else []) ++
         ["DO_PVP_3D = false", "PVP_3D_FMT = vtu", "SP_BIN_PATH = snowpack"]) ++ [[]]) =
      (s, ⟨d.sections,
        d.entries ++
          ((if p.lusSource = "constant" then [⟨s, "lus_prevah_cst", intToStr p.lusConstant⟩]
            else []) ++
           [⟨s, "do_pvp_3d", "false"⟩, ⟨s, "pvp_3d_fmt", "vtu"⟩,
            ⟨s, "sp_bin_path", "snowpack"⟩])⟩) := by
  by_cases hc : p.lusSource = "constant"
  · rw [if_pos hc, if_pos hc]
    show List.foldl procLine (s, d)
      (("LUS_PREVAH_CST = " ++ intToStr p.lusConstant).data ::
        ("DO_PVP_3D = false").data :: ("PVP_3D_FMT = vtu").data ::
        ("SP_BIN_PATH = snowpack").data :: [[]]) = _
    rw [List.foldl_cons,
      show ("LUS_PREVAH_CST = " ++ intToStr p.lusConstant).data =
        "LUS_PREVAH_CST ".data ++ '=' :: ' ' :: (intToStr p.lusConstant).data from rfl,
      procLine_genline s d _ _ (by decide) (intToStr_clean _)]
    rw [List.foldl_cons, procLine_dopvp, List.foldl_cons, procLine_pvpfmt,
      List.foldl_cons, procLine_spbin, List.foldl_cons, procLine_nil, List.foldl_nil]
    simp only [List.append_assoc]
    rfl
  · rw [if_neg hc, if_neg hc]
    show List.foldl procLine (s, d)
      (("DO_PVP_3D = false").data :: ("PVP_3D_FMT = vtu").data ::
        ("SP_BIN_PATH = snowpack").data :: [[]]) = _
    rw [List.foldl_cons, procLine_dopvp, List.foldl_cons, procLine_pvpfmt,
      List.foldl_cons, procLine_spbin, List.foldl_cons, procLine_nil, List.foldl_nil]
    simp only [List.append_assoc]
    rfl

/-- The parsed form of a serialized ParameterSet with no POIs. -/
def iniEntriesOf (p : ParameterSet) : List IniEntry :=
  [⟨"GENERAL", "simulation_name", p.simuName⟩,
   ⟨"GENERAL", "start_date", fmtIso p.startDt⟩,
   ⟨"GENERAL", "end_date", fmtIso p.endDt⟩,
   ⟨"INPUT", "east_epsg2056", fmtQ p.poiX⟩,
   ⟨"INPUT", "north_epsg2056", fmtQ p.poiY⟩,
   ⟨"INPUT", "altlv95", fmtQ p.poiZ⟩,
   ⟨"INPUT", "use_shp_roi", boolPy p.useShapefile⟩,
   (if p.useShapefile then ⟨"INPUT", "roi_shapefile", p.roiShapefile⟩
    else ⟨"INPUT", "roi", natToStr p.roiSize⟩),
   ⟨"INPUT", "buffersize", natToStr p.bufferSize⟩,
   ⟨"OUTPUT", "out_coordsys", p.coordSys⟩,
   ⟨"OUTPUT", "gsd", fmtQ p.gsd⟩,
   ⟨"OUTPUT", "gsd_ref", fmtQ p.gsdRef⟩,
   ⟨"OUTPUT", "dem_addfmtlist", ""⟩,
   ⟨"OUTPUT", "mesh_fmt", "vtu"⟩,
   ⟨"OUTPUT", "mask_dem_to_polygon", boolPy p.maskDem⟩,
   ⟨"OUTPUT", "mask_lus_to_polygon", boolPy p.maskLus⟩,
   ⟨"MAPS", "plot_horizon", "false"⟩,
   ⟨"A3D", "use_groundeye", "false"⟩,
   ⟨"A3D", "lus_source", p.lusSource⟩] ++
  ((if p.lusSource = "constant" then [⟨"A3D", "lus_prevah_cst", intToStr p.lusConstant⟩]
    else []) ++
   [⟨"A3D", "do_pvp_3d", "false"⟩,
    ⟨"A3D", "pvp_3d_fmt", "vtu"⟩,
    ⟨"A3D", "sp_bin_path", "snowpack"⟩])

theorem no_nl_line (lit x : String) (hlit : '\n' ∉ lit.data) (hx : '\n' ∉ x.data) :
    '\n' ∉ (lit ++ x).data := by
  intro hm
  rcases List.mem_append.mp (show '\n' ∈ lit.data ++ x.data from hm) with h | h
  exacts [hlit h, hx h]

set_option maxHeartbeats 2000000 in
/-- The INI reader recovers exactly the serialized sections and entries
from a saved ParameterSet with INI-safe fields and no POIs. -/
theorem parseIni_serialize (p : ParameterSet) (now : DateTime)
    (hsim : cleanVal p.simuName) (hshp : cleanVal p.roiShapefile)
    (hcoord : cleanVal p.coordSys) (hlus : cleanVal p.lusSource)
    (hqx : DecimalRat p.poiX) (hqy : DecimalRat p.poiY) (hqz : DecimalRat p.poiZ)
    (hgsd : DecimalRat p.gsd) (hgref : DecimalRat p.gsdRef)
    (hp : p.pois = []) :
    parseIni (serialize p now) =
      ⟨["GENERAL", "INPUT", "OUTPUT", "MAPS", "A3D"], iniEntriesOf p⟩ := by
  have hhdr : ∀ str ∈ headerLines now, '\n' ∉ str.data := by
    intro str hstr
    rcases List.mem_cons.mp hstr with rfl | hstr
    · decide
    rcases List.mem_cons.mp hstr with rfl | hstr
    · exact no_nl_line _ _ (by decide) (fmtHeaderTime_no_newline now)
    rcases List.mem_cons.mp hstr with rfl | hstr
    · decide
    · exact absurd hstr (List.not_mem_nil _)
  have hbodynl : ∀ str ∈ bodyLines p, '\n' ∉ str.data := by
    unfold bodyLines
    rw [hp]
    intro str hstr
    rcases List.mem_append.mp hstr with hmain | hpois
    · rcases List.mem_append.mp hmain with hfront | htail3
      · rcases List.mem_append.mp hfront with h | hseg
        · rcases List.mem_cons.mp h with rfl | h
          · decide
          rcases List.mem_cons.mp h with rfl | h
          · exact no_nl_line _ _ (by decide) hsim.1
          rcases List.mem_cons.mp h with rfl | h
          · exact no_nl_line _ _ (by decide) (fmtIso_clean _).1
          rcases List.mem_cons.mp h with rfl | h
          · exact no_nl_line _ _ (by decide) (fmtIso_clean _).1
          rcases List.mem_cons.mp h with rfl | h
          · decide
          rcases List.mem_cons.mp h with rfl | h
          · decide
          rcases List.mem_cons.mp h with rfl | h
          · exact no_nl_line _ _ (by decide) (fmtQ_clean hqx).1
          rcases List.mem_cons.mp h with rfl | h
          · exact no_nl_line _ _ (by decide) (fmtQ_clean hqy).1
          rcases List.mem_cons.mp h with rfl | h
          · exact no_nl_line _ _ (by decide) (fmtQ_clean hqz).1
          rcases List.mem_cons.mp h with rfl | h
          · exact no_nl_line _ _ (by decide) (boolPy_clean _).1
          rcases List.mem_cons.mp h with rfl | h
          · by_cases hu : p.useShapefile
            · rw [if_pos hu]
              exact no_nl_line _ _ (by decide) hshp.1
            · rw [if_neg hu]
              exact no_nl_line _ _ (by decide) (natToStr_clean _).1
          rcases List.mem_cons.mp h with rfl | h
          · exact no_nl_line _ _ (by decide) (natToStr_clean _).1
          rcases List.mem_cons.mp h with rfl | h
          · decide
          rcases List.mem_cons.mp h with rfl | h
          · decide
          rcases List.mem_cons.mp h with rfl | h
          · exact no_nl_line _ _ (by decide) hcoord.1
          rcases List.mem_cons.mp h with rfl | h
          · exact no_nl_line _ _ (by decide) (fmtQ_clean hgsd).1
          rcases List.mem_cons.mp h with rfl | h
          · exact no_nl_line _ _ (by decide) (fmtQ_clean hgref).1
          rcases List.mem_cons.mp h with rfl | h
          · decide
          rcases List.mem_cons.mp h with rfl | h
          · decide
          rcases List.mem_cons.mp h with rfl | h
          · exact no_nl_line _ _ (by decide) (boolPy_clean _).1
          rcases List.mem_cons.mp h with rfl | h
          · exact no_nl_line _ _ (by decide) (boolPy_clean _).1
          rcases List.mem_cons.mp h with rfl | h
          · decide
          rcases List.mem_cons.mp h with rfl | h
          · decide
          rcases List.mem_cons.mp h with rfl | h
          · decide
          rcases List.mem_cons.mp h with rfl | h
          · decide
          rcases List.mem_cons.mp h with rfl | h
          · decide
          rcases List.mem_cons.mp h with rfl | h
          · decide
          rcases List.mem_cons.mp h with rfl | h
          · exact no_nl_line _ _ (by decide) hlus.1
          · exact absurd h (List.not_mem_nil _)
        · by_cases hc : p.lusSource = "constant"
          · rw [if_pos hc] at hseg
            rcases List.mem_cons.mp hseg with rfl | hseg
            · exact no_nl_line _ _ (by decide) (intToStr_clean _).1
            · exact absurd hseg (List.not_mem_nil _)
          · rw [if_neg hc] at hseg
            exact absurd hseg (List.not_mem_nil _)
      · rcases List.mem_cons.mp htail3 with rfl | htail3
        · decide
        rcases List.mem_cons.mp htail3 with rfl | htail3
        · decide
        rcases List.mem_cons.mp htail3 with rfl | htail3
        · decide
        · exact absurd htail3 (List.not_mem_nil _)
    · simp at hpois
  have hnl : ∀ l ∈ (configLines p now).map String.data, '\n' ∉ l := by
    intro l hl
    obtain ⟨str, hstr, rfl⟩ := List.mem_map.mp hl
    unfold configLines at hstr
    rcases List.mem_append.mp hstr with h | h
    exacts [hhdr str h, hbodynl str h]
  have hsplit : splitOnChar '\n' (serializeChars p now) =
      ('#' :: " A3Dshell Configuration".data) ::
      ('#' :: (" Generated: " ++ fmtHeaderTime now).data) ::
      ([] : List Char) ::
      ("[GENERAL]").data ::
      ("SIMULATION_NAME ".data ++ '=' :: ' ' :: p.simuName.data) ::
      ("START_DATE ".data ++ '=' :: ' ' :: (fmtIso p.startDt).data) ::
      ("END_DATE ".data ++ '=' :: ' ' :: (fmtIso p.endDt).data) ::
      ([] : List Char) ::
      ("[INPUT]").data ::
      ("EAST_epsg2056 ".data ++ '=' :: ' ' :: (fmtQ p.poiX).data) ::
      ("NORTH_epsg2056 ".data ++ '=' :: ' ' :: (fmtQ p.poiY).data) ::
      ("altLV95 ".data ++ '=' :: ' ' :: (fmtQ p.poiZ).data) ::
      ("USE_SHP_ROI ".data ++ '=' :: ' ' :: (boolPy p.useShapefile).data) ::
      ((if p.useShapefile then "ROI_SHAPEFILE = " ++ p.roiShapefile
        else "ROI = " ++ natToStr p.roiSize)).data ::
      ("BUFFERSIZE ".data ++ '=' :: ' ' :: (natToStr p.bufferSize).data) ::
      ([] : List Char) ::
      ("[OUTPUT]").data ::
      ("OUT_COORDSYS ".data ++ '=' :: ' ' :: p.coordSys.data) ::
      ("GSD ".data ++ '=' :: ' ' :: (fmtQ p.gsd).data) ::
      ("GSD_ref ".data ++ '=' :: ' ' :: (fmtQ p.gsdRef).data) ::
      ("DEM_ADDFMTLIST =").data ::
      ("MESH_FMT = vtu").data ::
      ("MASK_DEM_TO_POLYGON ".data ++ '=' :: ' ' :: (boolPy p.maskDem).data) ::
      ("MASK_LUS_TO_POLYGON ".data ++ '=' :: ' ' :: (boolPy p.maskLus).data) ::
      ([] : List Char) ::
      ("[MAPS]").data ::
      ("PLOT_HORIZON = false").data ::
      ([] : List Char) ::
      ("[A3D]").data ::
      ("USE_GROUNDEYE = false").data ::
      ("LUS_SOURCE ".data ++ '=' :: ' ' :: p.lusSource.data) ::
      (List.map String.data
        ((if p.lusSource = "constant" then ["LUS_PREVAH_CST = " ++ intToStr p.lusConstant]
          else []) ++
         ["DO_PVP_3D = false", "PVP_3D_FMT = vtu", "SP_BIN_PATH = snowpack"]) ++ [[]]) := by
    show splitOnChar '\n' (joinLn ((configLines p now).map String.data)) = _
    rw [splitOnChar_joinLn hnl]
    unfold configLines headerLines bodyLines
    rw [hp]
    simp only [List.isEmpty_nil, if_true, List.append_nil]
    rfl
  show (List.foldl procLine ("", ⟨[], []⟩) (splitOnChar '\n' (serializeChars p now))).2 = _
  rw [hsplit]
  rw [List.foldl_cons, procLine_hash]
  rw [List.foldl_cons, procLine_hash]
  rw [List.foldl_cons, procLine_nil]
  rw [List.foldl_cons, procLine_secGENERAL]
  rw [List.foldl_cons, procLine_genline _ _ ("SIMULATION_NAME ".data) p.simuName
    (by decide) hsim]
  rw [List.foldl_cons, procLine_genline _ _ ("START_DATE ".data) (fmtIso p.startDt)
    (by decide) (fmtIso_clean _)]
  rw [List.foldl_cons, procLine_genline _ _ ("END_DATE ".data) (fmtIso p.endDt)
    (by decide) (fmtIso_clean _)]
  rw [List.foldl_cons, procLine_nil]
  rw [List.foldl_cons, procLine_secINPUT]
  rw [List.foldl_cons, procLine_genline _ _ ("EAST_epsg2056 ".data) (fmtQ p.poiX)
    (by decide) (fmtQ_clean hqx)]
  rw [List.foldl_cons, procLine_genline _ _ ("NORTH_epsg2056 ".data) (fmtQ p.poiY)
    (by decide) (fmtQ_clean hqy)]
  rw [List.foldl_cons, procLine_genline _ _ ("altLV95 ".data) (fmtQ p.poiZ)
    (by decide) (fmtQ_clean hqz)]
  rw [List.foldl_cons, procLine_genline _ _ ("USE_SHP_ROI ".data) (boolPy p.useShapefile)
    (by decide) (boolPy_clean _)]
  rw [List.foldl_cons, procLine_roiline _ _ p hshp]
  rw [List.foldl_cons, procLine_genline _ _ ("BUFFERSIZE ".data) (natToStr p.bufferSize)
    (by decide) (natToStr_clean _)]
  rw [List.foldl_cons, procLine_nil]
  rw [List.foldl_cons, procLine_secOUTPUT]
  rw [List.foldl_cons, procLine_genline _ _ ("OUT_COORDSYS ".data) p.coordSys
    (by decide) hcoord]
  rw [List.foldl_cons, procLine_genline _ _ ("GSD ".data) (fmtQ p.gsd)
    (by decide) (fmtQ_clean hgsd)]
  rw [List.foldl_cons, procLine_genline _ _ ("GSD_ref ".data) (fmtQ p.gsdRef)
    (by decide) (fmtQ_clean hgref)]
  rw [List.foldl_cons, procLine_demadd]
  rw [List.foldl_cons, procLine_meshfmt]
  rw [List.foldl_cons, procLine_genline _ _ ("MASK_DEM_TO_POLYGON ".data) (boolPy p.maskDem)
    (by decide) (boolPy_clean _)]
  rw [List.foldl_cons, procLine_genline _ _ ("MASK_LUS_TO_POLYGON ".data) (boolPy p.maskLus)
    (by decide) (boolPy_clean _)]
  rw [List.foldl_cons, procLine_nil]
  rw [List.foldl_cons, procLine_secMAPS]
  rw [List.foldl_cons, procLine_plothor]
  rw [List.foldl_cons, procLine_nil]
  rw [List.foldl_cons, procLine_secA3D]
  rw [List.foldl_cons, procLine_groundeye]
  rw [List.foldl_cons, procLine_genline _ _ ("LUS_SOURCE ".data) p.lusSource
    (by decide) hlus]
  rw [foldl_tailA3D]
  rfl

theorem parseIntChars_intToChars (i : Int) : parseIntChars (intToChars i) = some i := by
  unfold intToChars
  by_cases hi : i < 0
  · rw [if_pos hi]
    show (parseNatChars (natToChars i.natAbs)).map (fun n => -(n : Int)) = some i
    rw [parseNatChars_natToChars]
    show some (-(i.natAbs : Int)) = some i
    congr 1
    omega
  · rw [if_neg hi]
    rcases hcs : natToChars i.natAbs with _ | ⟨c, rest⟩
    · exact absurd hcs (natToChars_ne_nil _)
    · have hall := natToChars_all_digit i.natAbs
      rw [hcs] at hall
      simp only [List.all_cons, Bool.and_eq_true] at hall
      unfold parseIntChars
      split
      · next rest' heq =>
        have hc : c = '-' := by
          have := congrArg (fun l => l.headI) heq
          simpa using this
        rw [hc] at hall
        exact absurd hall.1 (by decide)
      · rw [← hcs, parseNatChars_natToChars]
        show some ((i.natAbs : Nat) : Int) = some i
        congr 1
        omega

/-- The SessionConfig that loading a just-saved ParameterSet produces. -/
def sessionOf (p : ParameterSet) : SessionConfig :=
  { simuName? := some p.simuName
    startDate? := some (fmtIso p.startDt)
    endDate? := some (fmtIso p.endDt)
    poiX? := some (fmtQ p.poiX)
    poiY? := some (fmtQ p.poiY)
    poiZ? := some (fmtQ p.poiZ)
    useShp? := some p.useShapefile
    roiSize? := some (if p.useShapefile then "1000" else natToStr p.roiSize)
    bufferSize? := some (natToStr p.bufferSize)
    roiShapefile? := some (if p.useShapefile then p.roiShapefile else "")
    coordSys? := some p.coordSys
    gsd? := some (fmtQ p.gsd)
    gsdRef? := some (fmtQ p.gsdRef)
    lusSource? := some p.lusSource
    lusCst? := some (if p.lusSource = "constant" then intToStr p.lusConstant else "11500") }

theorem hydrate_serialize (p : ParameterSet) (now : DateTime)
    (hsim : cleanVal p.simuName) (hshp : cleanVal p.roiShapefile)
    (hcoord : cleanVal p.coordSys) (hlus : cleanVal p.lusSource)
    (hqx : DecimalRat p.poiX) (hqy : DecimalRat p.poiY) (hqz : DecimalRat p.poiZ)
    (hgsd : DecimalRat p.gsd) (hgref : DecimalRat p.gsdRef)
    (hp : p.pois = []) :
    hydrate (parseIni (serialize p now)) = some (sessionOf p) := by
  rw [parseIni_serialize p now hsim hshp hcoord hlus hqx hqy hqz hgsd hgref hp]
  unfold iniEntriesOf sessionOf
  cases hu : p.useShapefile <;> by_cases hc : p.lusSource = "constant"
  · simp only [if_pos hc]
    rfl
  · simp only [if_neg hc]
    rfl
  · simp only [if_pos hc]
    rfl
  · simp only [if_neg hc]
    rfl

theorem widgetParams_sessionOf (p : ParameterSet)
    (hsd : ValidDT p.startDt) (hed : ValidDT p.endDt)
    (hqx : DecimalRat p.poiX) (hqy : DecimalRat p.poiY) (hqz : DecimalRat p.poiZ)
    (hgsd : DecimalRat p.gsd) (hgref : DecimalRat p.gsdRef)
    (hcl : p.coordSys ∈ coordList)
    (hgrm : p.gsdRef ∈ ([1/2, 2] : List ℚ))
    (hge : p.gsdRef ≤ p.gsd)
    (hll : p.lusSource ∈ lusList)
    (hroi : p.useShapefile = true → p.roiSize = 1000)
    (hshp : p.useShapefile = false → p.roiShapefile = "")
    (hcst : p.lusSource ≠ "constant" → p.lusConstant = 11500)
    (hmd : p.maskDem = true) (hml : p.maskLus = true)
    (hp : p.pois = []) :
    widgetParams (sessionOf p) = some p := by
  have h1 : parseQ (fmtQ p.poiX) = some p.poiX := parseQ_fmtQ hqx
  have h2 : parseQ (fmtQ p.poiY) = some p.poiY := parseQ_fmtQ hqy
  have h3 : parseQ (fmtQ p.poiZ) = some p.poiZ := parseQ_fmtQ hqz
  have h4 : parseQ (fmtQ p.gsd) = some p.gsd := parseQ_fmtQ hgsd
  have h5 : parseQ (fmtQ p.gsdRef) = some p.gsdRef := parseQ_fmtQ hgref
  have h6 : parseNatChars (String.data (natToStr p.bufferSize)) = some p.bufferSize :=
    parseNatChars_natToChars _
  have h7 : parseNatChars
      (String.data (if p.useShapefile then "1000" else natToStr p.roiSize)) =
      some p.roiSize := by
    cases hu : p.useShapefile
    · show parseNatChars (String.data (natToStr p.roiSize)) = some p.roiSize
      exact parseNatChars_natToChars _
    · show parseNatChars (String.data "1000") = some p.roiSize
      rw [hroi hu]
      decide
  have h8 : parseIntChars
      (String.data (if p.lusSource = "constant" then intToStr p.lusConstant else "11500")) =
      some p.lusConstant := by
    by_cases hc : p.lusSource = "constant"
    · rw [if_pos hc]
      exact parseIntChars_intToChars _
    · rw [if_neg hc, hcst hc]
      decide
  have h9 : widgetDate (some (fmtIso p.startDt)) defaultStart = p.startDt := by
    show (if fmtIso p.startDt ≠ "" then (parseDT (fmtIso p.startDt)).getD defaultStart
      else defaultStart) = p.startDt
    rw [if_pos (fmtIso_ne_empty _), parseDT_fmtIso hsd]
    rfl
  have h10 : widgetDate (some (fmtIso p.endDt)) defaultEnd = p.endDt := by
    show (if fmtIso p.endDt ≠ "" then (parseDT (fmtIso p.endDt)).getD defaultEnd
      else defaultEnd) = p.endDt
    rw [if_pos (fmtIso_ne_empty _), parseDT_fmtIso hed]
    rfl
  have h11 : (if p.lusSource ∈ lusList then p.lusSource else "tlm") = p.lusSource :=
    if_pos hll
  have h12 : (if p.useShapefile = true then p.roiShapefile else "") = p.roiShapefile := by
    cases hu : p.useShapefile
    · exact (hshp hu).symm
    · rfl
  simp only [widgetParams, sessionOf, h1, h2, h3, h4, h5, h6, h7, h8, h9, h10, h11, h12,
    Option.getD_some, Option.some_bind, pure_bind, guard, if_pos hcl, if_pos hgrm,
    max_eq_left hge]
  rcases p with ⟨sim, sd, ed, x, y, z, us, rs, rshp, bs, cs, g, gr, md, ml, ls, lc, pois⟩
  subst hmd
  subst hml
  subst hp
  simp [hgrm]
  rw [if_pos (show gr = 2⁻¹ ∨ gr = 2 by simpa using hgrm), sup_eq_left.mpr hge]
  rfl

/-- Fields for which loading a saved file reproduces the saved ParameterSet:
INI-safe strings, decimal rationals, dates the widgets accept, and the
whitelisted coordinate system / gsd_ref / lus_source values; a box-mode set
carries the fixed 1000 m ROI and no shapefile path, and conversely. -/
def ValidPS (p : ParameterSet) : Prop :=
  cleanVal p.simuName ∧ cleanVal p.roiShapefile ∧ cleanVal p.coordSys ∧
  cleanVal p.lusSource ∧
  DecimalRat p.poiX ∧ DecimalRat p.poiY ∧ DecimalRat p.poiZ ∧
  DecimalRat p.gsd ∧ DecimalRat p.gsdRef ∧
  ValidDT p.startDt ∧ ValidDT p.endDt ∧
  p.coordSys ∈ coordList ∧ p.gsdRef ∈ ([1/2, 2] : List ℚ) ∧ p.gsdRef ≤ p.gsd ∧
  p.lusSource ∈ lusList ∧
  (p.useShapefile = true → p.roiSize = 1000) ∧
  (p.useShapefile = false → p.roiShapefile = "")

instance (p : ParameterSet) : Decidable (ValidPS p) := by
  unfold ValidPS
  infer_instance

theorem deserialize_serialize (p : ParameterSet) (now : DateTime)
    (h : ValidPS p)
    (hmd : p.maskDem = true) (hml : p.maskLus = true)
    (hcst : p.lusSource ≠ "constant" → p.lusConstant = 11500)
    (hp : p.pois = []) :
    deserialize (serialize p now) = some p := by
  obtain ⟨hsim, hshp, hcoord, hlus, hqx, hqy, hqz, hgsd, hgref, hsd, hed, hcl, hgrm,
    hge, hll, hroi, hshp0⟩ := h
  unfold deserialize
  rw [hydrate_serialize p now hsim hshp hcoord hlus hqx hqy hqz hgsd hgref hp]
  show widgetParams (sessionOf p) = some p
  exact widgetParams_sessionOf p hsd hed hqx hqy hqz hgsd hgref hcl hgrm hge hll hroi
    hshp0 hcst hmd hml hp

/-! ## Boundary validation

check_swiss_boundaries (lines 146-207) and
check_polygon_in_swiss_boundaries (lines 209-270).  The shapely /
geopandas calls are modelled by oracles whose answers either return a
Bool (or the geometry bounds) or raise, i.e. Except.error; the
surrounding try/except of each Python function is the match in the
outer wrapper.  Messages are one constructor per source f-string
template, carrying the interpolated values. -/

structure BoundaryOracle where
  containsPoint : ℚ → ℚ → Except String Bool
  containsBox : ℚ → ℚ → ℚ → ℚ → Except String Bool

inductive ValMsg where
  | pointOutsideBounds (x y : ℚ)
  | roiOutsideBounds
  | withinBounds
  | pointOutsideSwiss (x y : ℚ)
  | roiOutsideSwiss
  | withinSwiss
  | couldNotValidate
  | ewOutsideBounds
  | nsOutsideBounds
  | roiWithinBounds
  | crossesBorder
  | completelyOutside
  | roiWithinSwiss
  | validationError (e : String)
deriving DecidableEq, Repr

/-- Python `if roi_size:` — None and 0 are falsy. -/
def qTruthy : Option ℚ → Bool
  | none => false
  | some v => v != 0

/-- The try-block body of check_swiss_boundaries: degraded hard-coded
extent when the boundary polygon is unavailable (lines 166-185),
otherwise point containment then optional ROI-box containment
(lines 187-203). -/
def checkSwissBody (b? : Option BoundaryOracle) (x y : ℚ) (roiSize : Option ℚ) :
    Except String (Bool × ValMsg) :=
  match b? with
  | none =>
    if ¬(2485000 ≤ x ∧ x ≤ 2834000 ∧ 1075000 ≤ y ∧ y ≤ 1296000) then
      .ok (false, .pointOutsideBounds x y)
    else if qTruthy roiSize then
      let h := roiSize.getD 0 / 2
      if ¬(2485000 ≤ x - h ∧ x + h ≤ 2834000 ∧ 1075000 ≤ y - h ∧ y + h ≤ 1296000) then
        .ok (false, .roiOutsideBounds)
      else .ok (true, .withinBounds)
    else .ok (true, .withinBounds)
  | some b =>
    match b.containsPoint x y with
    | .error e => .error e
    | .ok inside =>
      if ¬inside then .ok (false, .pointOutsideSwiss x y)
      else if qTruthy roiSize then
        let h := roiSize.getD 0 / 2
        match b.containsBox (x - h) (y - h) (x + h) (y + h) with
        | .error e => .error e
        | .ok boxIn =>
          if ¬boxIn then .ok (false, .roiOutsideSwiss)
          else .ok (true, .withinSwiss)
      else .ok (true, .withinSwiss)

/-- check_swiss_boundaries with its except branch (lines 205-207):
any exception yields (True, could-not-validate). -/
def check_swiss_boundaries (b? : Option BoundaryOracle) (x y : ℚ)
    (roiSize : Option ℚ) : Bool × ValMsg :=
  match checkSwissBody b? x y roiSize with
  | .ok r => r
  | .error _ => (true, .couldNotValidate)

structure PolyBounds where
  minx : ℚ
  miny : ℚ
  maxx : ℚ
  maxy : ℚ
deriving DecidableEq, Repr

/-- The geometry-dependent oracle answers of one
check_polygon_in_swiss_boundaries call: the GeoJSON conversion and
reprojection (lines 226-231), and the boundary contains/intersects
queries (lines 256-258). -/
structure PolyCheckInput where
  geomLV95 : Except String PolyBounds
  contains : Except String Bool
  intersects : Except String Bool

/-- The try-block body of check_polygon_in_swiss_boundaries: reproject,
then degraded bounds check (lines 236-251) or containment with the
crosses/outside distinction (lines 253-263). -/
def checkPolygonBody (hasBoundary : Bool) (g : PolyCheckInput) :
    Except String (Bool × ValMsg) :=
  match g.geomLV95 with
  | .error e => .error e
  | .ok b =>
    if ¬hasBoundary then
      if b.minx < 2485000 ∨ b.maxx > 2834000 then .ok (false, .ewOutsideBounds)
      else if b.miny < 1075000 ∨ b.maxy > 1296000 then .ok (false, .nsOutsideBounds)
      else .ok (true, .roiWithinBounds)
    else
      match g.contains with
      | .error e => .error e
      | .ok c =>
        if ¬c then
          match g.intersects with
          | .error e => .error e
          | .ok i =>
            if i then .ok (false, .crossesBorder)
            else .ok (false, .completelyOutside)
        else .ok (true, .roiWithinSwiss)

/-- check_polygon_in_swiss_boundaries with its except branch
(lines 265-270): any exception yields (False, validation-error). -/
def check_polygon_in_swiss_boundaries (hasBoundary : Bool) (g : PolyCheckInput) :
    Bool × ValMsg :=
  match checkPolygonBody hasBoundary g with
  | .ok r => r
  | .error e => (false, .validationError e)

/-- A boundary oracle whose shapely calls all raise, standing for a
malformed-geometry / reprojection failure inside the try block. -/
def errOracle : BoundaryOracle :=
  { containsPoint := fun _ _ => .error "reprojection error"
    containsBox := fun _ _ _ _ => .error "reprojection error" }

/-- A concrete boundary oracle: exact rational containment for the
axis-aligned rectangle 2485000..2834000 x 1075000..1296000, with
shapely's strict-interior semantics for contains. -/
def rectOracle : BoundaryOracle :=
  { containsPoint := fun x y =>
      .ok (decide (2485000 < x ∧ x < 2834000 ∧ 1075000 < y ∧ y < 1296000))
    containsBox := fun minx miny maxx maxy =>
      .ok (decide (2485000 < minx ∧ maxx < 2834000 ∧ 1075000 < miny ∧ maxy < 1296000)) }

/-! ## The ROI tab as a state transition

One Streamlit rerun of the ROI/DEM tab (lines 496-861) as a function of
the widget inputs: it rewrites st.session_state['roi_validated'] on the
paths that assign it and leaves it unchanged on the paths that do not.
The second component records the outcome of the boundary check the
rerun performed, none when no check ran. -/

structure RoiWidgets where
  useShapefile : Bool
  existingOption : Bool
  found : List String
  selected : String
  manualPath : String
  hasDrawing : Bool
  hasBoundary : Bool
  poly : PolyCheckInput
  savePressed : Bool
  shapefileName : String
  saveOk : Bool
  boundary? : Option BoundaryOracle
  poiX : ℚ
  poiY : ℚ
  roiSize : ℚ

/-- The assignments to roi_validated: lines 550, 559, 567 (existing
shapefile), 668, 671, 676 (drawn polygon), 857, 861 (centre-point
mode); no assignment on the draw path without a drawing (line 677). -/
def roiTabRun (s : Bool) (w : RoiWidgets) : Bool × Option Bool :=
  if w.useShapefile then
    if w.existingOption then
      if w.found ≠ [] then
        if w.selected ≠ "[Type path manually]" then (true, none)
        else (w.manualPath ≠ "", none)
      else (w.manualPath ≠ "", none)
    else
      if w.hasDrawing then
        let ok := (check_polygon_in_swiss_boundaries w.hasBoundary w.poly).1
        if ok then
          if w.savePressed ∧ w.shapefileName ≠ "" then
            (w.saveOk, some ok)
          else (s, some ok)
        else (false, some ok)
      else (s, none)
  else
    let ok := (check_swiss_boundaries w.boundary? w.poiX w.poiY (some w.roiSize)).1
    (ok, some ok)

/-- Start Run gating (line 1452): disabled = not roi_validated. -/
def startRunEnabled (roiValidated : Bool) : Bool := roiValidated

/-! ## The mask checkboxes

Lines 592-613 and 702-723: the stored mask_dem is
`mask_dem if mask_lus else False`; bounding-box mode (lines 727-728)
stores True for both. -/

/-- The `mask_dem if mask_lus else False` expression (lines 613, 723). -/
def effMaskDem (maskLus maskDem : Bool) : Bool :=
  if maskLus then maskDem else false

/-- The pair (mask_dem_to_polygon, mask_lus_to_polygon) one rerun of the
ROI tab stores. -/
def maskTabRun (useShapefile maskLus maskDem : Bool) : Bool × Bool :=
  if useShapefile then (effMaskDem maskLus maskDem, maskLus) else (true, true)

/-! ## The run invoker

Start Run (lines 1456-1579): write the temp config, run the subprocess
inside try/except, and in finally unlink the temp file if it exists.
The filesystem is the list of existing paths; the subprocess outcome is
an input.  The Other Locations run (lines 2032-2058) has the same
write/try/finally shape. -/

inductive RunOutcome where
  | exited (code : Int)
  | raised (msg : String)
deriving DecidableEq, Repr

/-- The finally block (lines 1576-1579): if temp_config.exists() then
temp_config.unlink().  Returns the filesystem and the number of unlink
calls made. -/
def runFinally (fs : List String) (temp : String) : List String × Nat :=
  if temp ∈ fs then (fs.filter (fun f => f != temp), 1) else (fs, 0)

/-- One Start Run press past the gate: save the temp config
(lines 1505-1507), run to the given outcome, then the finally block. -/
def startRun (fs : List String) (temp : String) (o : RunOutcome) :
    List String × Nat × RunOutcome :=
  let fsW := if temp ∈ fs then fs else temp :: fs
  let r := runFinally fsW temp
  (r.1, r.2, o)

/-! ## The claims -/

def now0 : DateTime := ⟨2024, 3, 15, 12, 0, 0⟩

def witPS : ParameterSet :=
  { simuName := "demo", startDt := ⟨2023, 10, 1, 0, 0, 0⟩,
    endDt := ⟨2023, 10, 31, 23, 59, 59⟩,
    poiX := 645000, poiY := 115000, poiZ := 1500,
    useShapefile := false, roiSize := 1000, roiShapefile := "",
    bufferSize := 50000, coordSys := "CH1903+", gsd := 10, gsdRef := 2,
    maskDem := true, maskLus := true, lusSource := "constant",
    lusConstant := 11500, pois := [] }

def cexPS : ParameterSet := { witPS with maskDem := false, maskLus := false }

/-- C1: round-trip of save and load.  As stated the claim fails: the loader ignores the [POIS] section and the mask keys, so masks come back true and POIs empty.  Corrected: deserialize (serialize p) = some p for every valid ParameterSet whose mask flags are both true, whose POI list is empty, and whose constant land-cover code is the default 11500 unless lus_source is "constant". -/
theorem C1_save_load_roundtrip (p : ParameterSet) (now : DateTime)
    (h : ValidPS p) (hmd : p.maskDem = true) (hml : p.maskLus = true)
    (hcst : p.lusSource ≠ "constant" → p.lusConstant = 11500)
    (hpois : p.pois = []) :
    deserialize (serialize p now) = some p :=
  deserialize_serialize p now h hmd hml hcst hpois

set_option maxRecDepth 200000 in
unseal Rat.mul Rat.inv Rat.add Rat.sub in
/-- Witness for C1 at a concrete valid ParameterSet. -/
theorem C1_save_load_roundtrip_witness :
    ValidPS witPS ∧ deserialize (serialize witPS now0) = some witPS :=
  ⟨by decide,
   C1_save_load_roundtrip witPS now0 (by decide) rfl rfl (fun h => absurd rfl h) rfl⟩

set_option maxRecDepth 200000 in
unseal Rat.mul Rat.inv Rat.add Rat.sub in
/-- Counterexample to C1 as stated: a valid ParameterSet with both masks off does not round-trip; the loader forces the masks back to true. -/
theorem C1_roundtrip_counterexample :
    ValidPS cexPS ∧ deserialize (serialize cexPS now0) ≠ some cexPS ∧
    deserialize (serialize cexPS now0) =
      some { cexPS with maskDem := true, maskLus := true } := by
  refine ⟨by decide, by decide, by decide⟩

/-- C2: serialization determinism.  As stated the claim fails: the header embeds datetime.now().  Corrected: two serializations of the same ParameterSet are byte-identical exactly when the formatted generation timestamps coincide. -/
theorem C2_serialize_byte_identity (p : ParameterSet) (n1 n2 : DateTime) :
    serialize p n1 = serialize p n2 ↔ fmtHeaderTime n1 = fmtHeaderTime n2 := by
  constructor
  · intro h
    have hd : serializeChars p n1 = serializeChars p n2 := congrArg String.data h
    have e : ∀ now : DateTime, serializeChars p now =
        ("# A3Dshell Configuration\n# Generated: ".data ++
          ((fmtHeaderTime now).data ++ "\n\n".data)) ++
          joinLn ((bodyLines p).map String.data) := by
      intro now
      show joinLn ((configLines p now).map String.data) = _
      unfold configLines
      rw [List.map_append, joinLn_append]
      rfl
    rw [e, e] at hd
    have h1 := List.append_cancel_right hd
    have h2 := List.append_cancel_left h1
    have h3 := List.append_cancel_right h2
    exact congrArg String.mk h3
  · intro h
    unfold serialize serializeChars configLines headerLines
    rw [h]

def nowLater : DateTime := ⟨2024, 3, 15, 12, 0, 1⟩

set_option maxRecDepth 100000 in
/-- Counterexample to C2 as stated: one second of wall-clock difference changes the output bytes. -/
theorem C2_serialize_counterexample :
    serialize witPS now0 ≠ serialize witPS nowLater := by decide

/-- C3: internal-failure handling.  As stated the claim fails: only check_polygon_in_swiss_boundaries fails closed; check_swiss_boundaries returns success when its try block raises.  Corrected: polygon validation maps an internal error to (False, validation-error); the point/box check maps it to (True, could-not-validate). -/
theorem C3_internal_failure_handling :
    (∀ (hb : Bool) (g : PolyCheckInput) (e : String),
      checkPolygonBody hb g = .error e →
      check_polygon_in_swiss_boundaries hb g = (false, .validationError e)) ∧
    (∀ (b? : Option BoundaryOracle) (x y : ℚ) (r : Option ℚ) (e : String),
      checkSwissBody b? x y r = .error e →
      check_swiss_boundaries b? x y r = (true, .couldNotValidate)) := by
  constructor
  · intro hb g e h
    unfold check_polygon_in_swiss_boundaries
    rw [h]
  · intro b? x y r e h
    unfold check_swiss_boundaries
    rw [h]

def polyErrInput : PolyCheckInput :=
  ⟨.error "invalid geometry", .ok true, .ok true⟩

/-- Witness for C3 with concrete raising oracles. -/
theorem C3_internal_failure_witness :
    check_polygon_in_swiss_boundaries true polyErrInput =
      (false, .validationError "invalid geometry") ∧
    check_swiss_boundaries (some errOracle) 2600000 1200000 (some 1000) =
      (true, .couldNotValidate) :=
  ⟨C3_internal_failure_handling.1 true polyErrInput "invalid geometry" rfl,
   C3_internal_failure_handling.2 (some errOracle) 2600000 1200000 (some 1000)
     "reprojection error" rfl⟩

/-- Counterexample to C3 as stated: an internal failure in the point/box check yields ok = true. -/
theorem C3_fail_open_counterexample :
    (check_swiss_boundaries (some errOracle) 2600000 1200000 (some 1000)).1 = true := rfl

/-- C4: run gating.  As stated the claim fails: in the existing-shapefile path, selecting a found shapefile marks the ROI validated without any boundary check, and a draw-mode rerun without a drawing keeps the stale flag.  Corrected: in centre-point mode the gate equals the current check_swiss_boundaries outcome; existing-shapefile selection enables the run with no check run (event none); with no drawing the prior state persists; Start Run is enabled exactly when roi_validated. -/
theorem C4_run_gating (s : Bool) (w : RoiWidgets) :
    (w.useShapefile = false →
      roiTabRun s w =
        ((check_swiss_boundaries w.boundary? w.poiX w.poiY (some w.roiSize)).1,
         some (check_swiss_boundaries w.boundary? w.poiX w.poiY (some w.roiSize)).1)) ∧
    (w.useShapefile = true → w.existingOption = true → w.found ≠ [] →
      w.selected ≠ "[Type path manually]" → roiTabRun s w = (true, none)) ∧
    (w.useShapefile = true → w.existingOption = false → w.hasDrawing = false →
      roiTabRun s w = (s, none)) ∧
    startRunEnabled (roiTabRun s w).1 = (roiTabRun s w).1 := by
  refine ⟨?_, ?_, ?_, rfl⟩
  · intro h
    unfold roiTabRun
    rw [h]
    rfl
  · intro h1 h2 h3 h4
    unfold roiTabRun
    rw [h1, h2, if_pos h3, if_pos h4]
    rfl
  · intro h1 h2 h3
    unfold roiTabRun
    rw [h1, h2, h3]
    rfl

def dummyPoly : PolyCheckInput := ⟨.ok ⟨0, 0, 0, 0⟩, .ok true, .ok true⟩

def wExisting : RoiWidgets :=
  { useShapefile := true, existingOption := true, found := ["config/a.shp"],
    selected := "config/a.shp", manualPath := "", hasDrawing := false,
    hasBoundary := true, poly := dummyPoly, savePressed := false,
    shapefileName := "", saveOk := false, boundary? := none,
    poiX := 0, poiY := 0, roiSize := 0 }

def wNoDrawing : RoiWidgets := { wExisting with existingOption := false }

/-- Witness for C4: the selection path and the no-drawing path at concrete widgets. -/
theorem C4_run_gating_witness :
    roiTabRun false wExisting = (true, none) ∧
    roiTabRun true wNoDrawing = (true, none) :=
  ⟨(C4_run_gating false wExisting).2.1 rfl rfl (by decide) (by decide),
   (C4_run_gating true wNoDrawing).2.2.1 rfl rfl rfl⟩

/-- Counterexample to C4 as stated: from an unvalidated session, one rerun that performs no boundary check (event none) enables the run. -/
theorem C4_gating_counterexample :
    roiTabRun false wExisting = (true, none) ∧
    startRunEnabled (roiTabRun false wExisting).1 = true := by
  refine ⟨by decide, by decide⟩

/-- C5: crosses vs outside messages.  As stated the claim fails for boxes: only the polygon checker distinguishes crossing from completely outside; the box check returns the single roi-extends message on containment failure, and the point-outside message when the centre is outside, for crossing and fully-outside boxes alike. -/
theorem C5_crosses_vs_outside :
    (∀ (g : PolyCheckInput) (b : PolyBounds),
      g.geomLV95 = .ok b → g.contains = .ok false → g.intersects = .ok true →
      check_polygon_in_swiss_boundaries true g = (false, .crossesBorder)) ∧
    (∀ (g : PolyCheckInput) (b : PolyBounds),
      g.geomLV95 = .ok b → g.contains = .ok false → g.intersects = .ok false →
      check_polygon_in_swiss_boundaries true g = (false, .completelyOutside)) ∧
    (ValMsg.crossesBorder ≠ ValMsg.completelyOutside) ∧
    (∀ (b : BoundaryOracle) (x y r : ℚ),
      b.containsPoint x y = .ok true → qTruthy (some r) = true →
      b.containsBox (x - r / 2) (y - r / 2) (x + r / 2) (y + r / 2) = .ok false →
      check_swiss_boundaries (some b) x y (some r) = (false, .roiOutsideSwiss)) ∧
    (∀ (b : BoundaryOracle) (x y : ℚ) (r : Option ℚ),
      b.containsPoint x y = .ok false →
      check_swiss_boundaries (some b) x y r = (false, .pointOutsideSwiss x y)) := by
  refine ⟨?_, ?_, by decide, ?_, ?_⟩
  · intro g b hg hc hi
    unfold check_polygon_in_swiss_boundaries checkPolygonBody
    simp [hg, hc, hi]
  · intro g b hg hc hi
    unfold check_polygon_in_swiss_boundaries checkPolygonBody
    simp [hg, hc, hi]
  · intro b x y r hp hq hb
    unfold check_swiss_boundaries checkSwissBody
    simp [hp, hq, hb]
  · intro b x y r hp
    unfold check_swiss_boundaries checkSwissBody
    simp [hp]

def polyCrossInput : PolyCheckInput :=
  ⟨.ok ⟨2480000, 1100000, 2500000, 1120000⟩, .ok false, .ok true⟩

def polyOutsideInput : PolyCheckInput :=
  ⟨.ok ⟨2400000, 1000000, 2450000, 1050000⟩, .ok false, .ok false⟩

set_option maxRecDepth 10000 in
unseal Rat.mul Rat.inv Rat.add Rat.sub in
/-- Witness for C5 at concrete polygon inputs and a concrete rectangle boundary. -/
theorem C5_crosses_vs_outside_witness :
    check_polygon_in_swiss_boundaries true polyCrossInput = (false, .crossesBorder) ∧
    check_polygon_in_swiss_boundaries true polyOutsideInput =
      (false, .completelyOutside) ∧
    check_swiss_boundaries (some rectOracle) 2485500 1100000 (some 2000) =
      (false, .roiOutsideSwiss) ∧
    check_swiss_boundaries (some rectOracle) 2484000 1100000 (some 200) =
      (false, .pointOutsideSwiss 2484000 1100000) :=
  ⟨C5_crosses_vs_outside.1 polyCrossInput _ rfl rfl rfl,
   C5_crosses_vs_outside.2.1 polyOutsideInput _ rfl rfl rfl,
   C5_crosses_vs_outside.2.2.2.1 rectOracle 2485500 1100000 2000 rfl (by decide) rfl,
   C5_crosses_vs_outside.2.2.2.2 rectOracle 2484000 1100000 (some 200) rfl⟩

set_option maxRecDepth 10000 in
unseal Rat.mul Rat.inv Rat.add Rat.sub in
/-- Counterexample to C5 as stated: a box entirely outside the rectangle boundary and a box crossing it return identical (ok, message) results. -/
theorem C5_box_message_counterexample :
    check_swiss_boundaries (some rectOracle) 2484000 1100000 (some 200) =
      (false, .pointOutsideSwiss 2484000 1100000) ∧
    check_swiss_boundaries (some rectOracle) 2484000 1100000 (some 10000) =
      (false, .pointOutsideSwiss 2484000 1100000) := by decide

/-- C6: legacy USE_LUS_TLM key.  Hydration maps legacy true to tlm, legacy false to constant, and both keys absent to tlm. -/
theorem C6_legacy_lus_key (d : IniData) (hA : hasSection d "A3D" = true)
    (hnew : iniGet d "A3D" "LUS_SOURCE" = none) :
    (∀ w, iniGet d "A3D" "USE_LUS_TLM" = some w → pyBool w = some true →
      sessionLusSource d = some (some "tlm")) ∧
    (∀ w, iniGet d "A3D" "USE_LUS_TLM" = some w → pyBool w = some false →
      sessionLusSource d = some (some "constant")) ∧
    (iniGet d "A3D" "USE_LUS_TLM" = none → sessionLusSource d = some (some "tlm")) := by
  refine ⟨?_, ?_, ?_⟩
  · intro w hw hpb
    simp [sessionLusSource, hA, hnew, hw, hpb]
  · intro w hw hpb
    simp [sessionLusSource, hA, hnew, hw, hpb]
  · intro hold
    simp [sessionLusSource, hA, hnew, hold]

def legacyTrueIni : IniData := parseIni "[A3D]\nUSE_LUS_TLM = true"

def legacyFalseIni : IniData := parseIni "[A3D]\nUSE_LUS_TLM = false"

def legacyAbsentIni : IniData := parseIni "[A3D]\nDO_PVP_3D = false"

/-- Witness for C6 on three concrete stored files. -/
theorem C6_legacy_lus_key_witness :
    sessionLusSource legacyTrueIni = some (some "tlm") ∧
    sessionLusSource legacyFalseIni = some (some "constant") ∧
    sessionLusSource legacyAbsentIni = some (some "tlm") :=
  ⟨(C6_legacy_lus_key legacyTrueIni (by decide) (by decide)).1 "true"
     (by decide) (by decide),
   (C6_legacy_lus_key legacyFalseIni (by decide) (by decide)).2.1 "false"
     (by decide) (by decide),
   (C6_legacy_lus_key legacyAbsentIni (by decide) (by decide)).2.2 (by decide)⟩

/-- C7: mask dependency.  The stored elevation mask is `mask_dem if mask_lus else False`, so it is false whenever the stored land-cover mask is false, and the serialized MASK_DEM_TO_POLYGON line then reads false. -/
theorem C7_mask_dependency (us ml md : Bool) (p : ParameterSet) (now : DateTime)
    (hd : p.maskDem = (maskTabRun us ml md).1)
    (hl : p.maskLus = (maskTabRun us ml md).2)
    (hlf : p.maskLus = false) :
    p.maskDem = false ∧ effMaskDem false md = false ∧
    "MASK_DEM_TO_POLYGON = false" ∈ configLines p now := by
  have hus : us = true := by
    cases us
    · rw [hl] at hlf
      exact absurd hlf (by simp [maskTabRun])
    · rfl
  subst hus
  have hml : ml = false := by
    rw [hl] at hlf
    simpa [maskTabRun] using hlf
  subst hml
  have hdf : p.maskDem = false := by
    rw [hd]
    simp [maskTabRun, effMaskDem]
  refine ⟨hdf, rfl, ?_⟩
  have hline : "MASK_DEM_TO_POLYGON = false" =
      "MASK_DEM_TO_POLYGON = " ++ boolPy p.maskDem := by
    rw [hdf]
    rfl
  rw [hline]
  unfold configLines bodyLines headerLines
  simp

/-- Witness for C7 at a concrete ParameterSet with both masks off. -/
theorem C7_mask_dependency_witness :
    cexPS.maskDem = false ∧ effMaskDem false true = false ∧
    "MASK_DEM_TO_POLYGON = false" ∈ configLines cexPS now0 :=
  C7_mask_dependency true false true cexPS now0 rfl rfl rfl

/-- C8: temp config cleanup.  After a run the temp config no longer exists and the finally block unlinked it exactly once, whatever the subprocess outcome. -/
theorem C8_temp_config_cleanup (fs : List String) (temp : String) (o : RunOutcome) :
    (startRun fs temp o).1.contains temp = false ∧
    (startRun fs temp o).2.1 = 1 ∧ (startRun fs temp o).2.2 = o := by
  have hfil : ∀ l : List String,
      (l.filter (fun f => f != temp)).contains temp = false := by
    intro l
    simp

  unfold startRun runFinally
  by_cases h : temp ∈ fs
  · simp [h, hfil]
  · simp [h, hfil]

def now9 : DateTime := ⟨2024, 1, 2, 3, 4, 5⟩

set_option maxRecDepth 100000 in
/-- C9: end-to-end scenario.  The documented ParameterSet serializes with ROI = 1000, LUS_SOURCE = constant, LUS_PREVAH_CST = 11500 and no roi_shapefile key. -/
theorem C9_scenario_serialization :
    "ROI = 1000" ∈ configLines witPS now9 ∧
    "LUS_SOURCE = constant" ∈ configLines witPS now9 ∧
    "LUS_PREVAH_CST = 11500" ∈ configLines witPS now9 ∧
    iniGet (parseIni (serialize witPS now9)) "INPUT" "ROI" = some "1000" ∧
    (parseIni (serialize witPS now9)).entries.all
      (fun e => e.key != "roi_shapefile") = true := by
  refine ⟨by decide, by decide, by decide, by decide, by decide⟩

/-- C10: falsy roi_size.  With roi_size None or 0 the ROI box check is skipped and the result is the point-only outcome, in both the degraded and the boundary-polygon path. -/
theorem C10_falsy_roi_size (b? : Option BoundaryOracle) (x y : ℚ) :
    check_swiss_boundaries b? x y (some 0) = check_swiss_boundaries b? x y none ∧
    check_swiss_boundaries b? x y none =
      (match b? with
       | none =>
         if 2485000 ≤ x ∧ x ≤ 2834000 ∧ 1075000 ≤ y ∧ y ≤ 1296000 then
           (true, ValMsg.withinBounds)
         else (false, ValMsg.pointOutsideBounds x y)
       | some b =>
         match b.containsPoint x y with
         | .ok true => (true, ValMsg.withinSwiss)
         | .ok false => (false, ValMsg.pointOutsideSwiss x y)
         | .error _ => (true, ValMsg.couldNotValidate)) := by
  have hq : qTruthy (some 0) = false := by decide
  cases b? with
  | none =>
    constructor <;>
    · unfold check_swiss_boundaries checkSwissBody
      by_cases h : 2485000 ≤ x ∧ x ≤ 2834000 ∧ 1075000 ≤ y ∧ y ≤ 1296000
      · simp [h, hq]
      · simp [h]
  | some b =>
    constructor <;>
    · unfold check_swiss_boundaries checkSwissBody
      cases hcp : b.containsPoint x y with
      | error e => simp [hcp]
      | ok inside => cases inside <;> simp [hcp, hq, qTruthy]

end A3D
